import Mathlib

set_option linter.unusedVariables false
set_option linter.unnecessarySeqFocus false

/-!
Verification development for the minecraft-server provisioning service
(FastAPI front end in main.py, facade in resource_manager.py, orchestration
core in k8s_manager.py).  The Kubernetes cluster is modelled as a finite
record of resource-name lists; every remote call of the orchestrator is a
pure state transformer that may fail according to an injected fault
schedule.  The two polling waiters are additionally modelled in full detail
against an environment that supplies the outcome of each poll.
-/

namespace K8sFastApi

/-! ## Name normalization (k8s_manager.py, `_sanitize_name`)

The Python code deletes every character outside [a-z0-9-] from the
lower-cased input, strips leading and trailing dashes, and collapses every
dash run to a single dash.
lower-casing is modelled character-wise on ASCII; the subsequent regex
deletes every character outside [a-z0-9-] anyway. -/

/-- ASCII lower-casing of one character, modelling `str.lower()`. -/
def asciiLower (c : Char) : Char :=
  if 65 ≤ c.toNat ∧ c.toNat ≤ 90 then Char.ofNat (c.toNat + 32) else c

/-- Characters surviving the deletion regex `[^a-z0-9-]`. -/
def allowedChar (c : Char) : Bool :=
  (97 ≤ c.toNat && c.toNat ≤ 122) || (48 ≤ c.toNat && c.toNat ≤ 57) || (c.toNat == 45)

/-- Drop the leading run of dashes (one side of the Python dash strip). -/
def dropDash (l : List Char) : List Char :=
  List.dropWhile (fun c => c == '-') l

/-- The Python dash strip: remove leading and trailing runs of dashes. -/
def stripDash (l : List Char) : List Char :=
  (dropDash ((dropDash l).reverse)).reverse

/-- Collapse every maximal run of dashes to a single dash (the final
regex substitution of the sanitizer). -/
def squashDash : List Char → List Char
  | [] => []
  | [c] => [c]
  | a :: b :: rest =>
    if a == '-' && b == '-' then squashDash (b :: rest)
    else a :: squashDash (b :: rest)

/-- The `_sanitize_name` method of `K8sManager`. -/
def sanitize_name (s : String) : String :=
  String.mk (squashDash (stripDash (List.filter allowedChar (s.data.map asciiLower))))

/-- Bool predicate: the list does not start with a dash. -/
def headNotDash : List Char → Bool
  | [] => true
  | c :: _ => !(c == '-')

/-- Bool predicate: the list does not end with a dash. -/
def lastNotDash (l : List Char) : Bool :=
  headNotDash l.reverse

/-- Bool predicate: no two adjacent dashes. -/
def noDoubleDash : List Char → Bool
  | [] => true
  | [_] => true
  | a :: b :: rest => !(a == '-' && b == '-') && noDoubleDash (b :: rest)

/-! ## Cluster state and fault model

The remote Kubernetes platform is modelled as a record of name lists, one
per resource kind that k8s_manager.py touches.  Key→text payloads of config
objects and pod specs are abstracted away: the claims are about which
named resources exist.  Every remote call that the Python code lets fail
is guarded by an injected fault schedule: creates, reads and waits, and
also deletes — `_delete_resource` treats a 404 as success but re-raises any
other ApiException, so a delete can fail, aborting the deletes that follow
it in the same method.  Each cleanup invocation carries its own delete
schedule, since distinct remote calls fail independently. -/

structure K8sState where
  deployments : List String
  services : List String
  ingresses : List String
  configMaps : List String
  pvs : List String
  pvcs : List String
  jobs : List String
deriving DecidableEq, Repr

/-- Idempotent creation at the platform: a name is listed at most once. -/
def insertName (n : String) (l : List String) : List String :=
  if n ∈ l then l else n :: l

/-- Deletion at the platform: absence is tolerated. -/
def removeName (n : String) (l : List String) : List String :=
  l.filter (fun m => m != n)

/-- The remote calls of one provisioning pass that can fail, in source order
of k8s_manager.py `create_minecraft_resources`. -/
inductive PStep
  | paperRead
  | paperWrite
  | servertapCM
  | pvcProbe
  | jobDelete
  | jobCreate
  | jobWait
  | pvRead
  | pvCreate
  | pvcCreate
  | pvcWait
  | deploy
  | service
  | ingress
  | delDeployment
  | delService
  | delIngress
  | delConfigMap
  | delPVC
  | delPV
deriving DecidableEq, Repr

/-- Failures surfaced by the orchestration core: a platform fault (non-404
ApiException or a waiter timeout) at a given step, or a 409 conflict from a
blind create. -/
inductive ProvErr
  | fault (s : PStep)
  | conflict (s : PStep)
deriving DecidableEq, Repr

/-- The success dictionary returned by `create_minecraft_resources`. -/
structure ProvResult where
  status : String
  pod_name : String
  pvc_name : String
  game_url : String
  api_url : String
deriving DecidableEq, Repr

/-- A fault schedule says which fallible remote calls fail in this run. -/
def FaultSchedule : Type := PStep → Bool

/-- Name of the single shared config object. -/
def paperConfigMapName : String := "paper-global-config"

/-- The method `cleanup_ephemeral_resources`: deletes the deployment, the
service, the ingress and the per-server config object for the given name,
in this order, through `_delete_resource`, which tolerates a 404 (absence is
success) but re-raises any other ApiException — so a failing delete aborts
the remaining deletes and surfaces its own error, with the deletes already
issued kept.  The invocation's schedule `g` says which of the four delete
calls fail.  PV, PVC and the shared config object are never touched. -/
def cleanup_ephemeral_resources (g : FaultSchedule) (pod_name : String) (st : K8sState) :
    Except (K8sState × ProvErr) K8sState :=
  if g PStep.delDeployment then Except.error (st, ProvErr.fault PStep.delDeployment)
  else
    let st1 := { st with deployments := removeName pod_name st.deployments }
    if g PStep.delService then Except.error (st1, ProvErr.fault PStep.delService)
    else
      let st2 := { st1 with services := removeName (pod_name ++ "-svc") st1.services }
      if g PStep.delIngress then Except.error (st2, ProvErr.fault PStep.delIngress)
      else
        let st3 := { st2 with
          ingresses := removeName ("servertap-" ++ pod_name ++ "-ingress") st2.ingresses }
        if g PStep.delConfigMap then Except.error (st3, ProvErr.fault PStep.delConfigMap)
        else Except.ok { st3 with
          configMaps := removeName ("servertap-config-" ++ pod_name) st3.configMaps }

/-- The method `create_or_update_paper_configmap`: read then patch when the
shared object exists, read then create when the read reports 404. -/
def create_or_update_paper_configmap (f : FaultSchedule) (st : K8sState) :
    Except (K8sState × ProvErr) K8sState :=
  if f PStep.paperRead then Except.error (st, ProvErr.fault PStep.paperRead)
  else if paperConfigMapName ∈ st.configMaps then
    if f PStep.paperWrite then Except.error (st, ProvErr.fault PStep.paperWrite)
    else Except.ok st
  else if f PStep.paperWrite then Except.error (st, ProvErr.fault PStep.paperWrite)
  else Except.ok { st with configMaps := insertName paperConfigMapName st.configMaps }

/-- The method `create_servertap_configmap`: a blind create of
servertap-config-<pod_name>; creating over an existing object is a 409. -/
def create_servertap_configmap (f : FaultSchedule) (pod_name : String) (st : K8sState) :
    Except (K8sState × ProvErr) K8sState :=
  if f PStep.servertapCM then Except.error (st, ProvErr.fault PStep.servertapCM)
  else if ("servertap-config-" ++ pod_name) ∈ st.configMaps then
    Except.error (st, ProvErr.conflict PStep.servertapCM)
  else Except.ok
    { st with configMaps := insertName ("servertap-config-" ++ pod_name) st.configMaps }

/-- The method `pvc_exists`: read the claim, 404 means false, any other
read failure propagates. -/
def pvc_exists (f : FaultSchedule) (pvc_name : String) (st : K8sState) :
    Except (K8sState × ProvErr) Bool :=
  if f PStep.pvcProbe then Except.error (st, ProvErr.fault PStep.pvcProbe)
  else Except.ok (pvc_name ∈ st.pvcs)

/-- The method `create_nfs_directory_job`: delete any stale job of the same
name (404 tolerated, any other delete failure re-raised), create the job
create-nfs-dir-<pvc_name>, then block on `_wait_for_job_completion`
(modelled here at the orchestration level as one fallible step; the full
polling loop is modelled separately below). -/
def create_nfs_directory_job (f : FaultSchedule) (pvc_name : String) (st : K8sState) :
    Except (K8sState × ProvErr) K8sState :=
  if f PStep.jobDelete then Except.error (st, ProvErr.fault PStep.jobDelete)
  else
    let st1 := { st with jobs := removeName ("create-nfs-dir-" ++ pvc_name) st.jobs }
    if f PStep.jobCreate then Except.error (st1, ProvErr.fault PStep.jobCreate)
    else
      let st2 := { st1 with jobs := insertName ("create-nfs-dir-" ++ pvc_name) st1.jobs }
      if f PStep.jobWait then Except.error (st2, ProvErr.fault PStep.jobWait)
      else Except.ok st2

/-- The method `create_persistent_volume`: read pv-<pvc_name>; if it already
exists skip creation, if the read reports 404 create it. -/
def create_persistent_volume (f : FaultSchedule) (pvc_name : String) (st : K8sState) :
    Except (K8sState × ProvErr) K8sState :=
  if f PStep.pvRead then Except.error (st, ProvErr.fault PStep.pvRead)
  else if ("pv-" ++ pvc_name) ∈ st.pvs then Except.ok st
  else if f PStep.pvCreate then Except.error (st, ProvErr.fault PStep.pvCreate)
  else Except.ok { st with pvs := insertName ("pv-" ++ pvc_name) st.pvs }

/-- The method `create_persistent_volume_claim` followed by its internal
`_wait_for_pvc_bound` (again one fallible step here; the polling loop is
modelled in full below). -/
def create_persistent_volume_claim (f : FaultSchedule) (pvc_name : String) (st : K8sState) :
    Except (K8sState × ProvErr) K8sState :=
  if f PStep.pvcCreate then Except.error (st, ProvErr.fault PStep.pvcCreate)
  else if pvc_name ∈ st.pvcs then Except.error (st, ProvErr.conflict PStep.pvcCreate)
  else
    let st2 := { st with pvcs := insertName pvc_name st.pvcs }
    if f PStep.pvcWait then Except.error (st2, ProvErr.fault PStep.pvcWait)
    else Except.ok st2

/-- The method `create_deployment` (blind create). -/
def create_deployment (f : FaultSchedule) (deployment_name : String) (st : K8sState) :
    Except (K8sState × ProvErr) K8sState :=
  if f PStep.deploy then Except.error (st, ProvErr.fault PStep.deploy)
  else if deployment_name ∈ st.deployments then
    Except.error (st, ProvErr.conflict PStep.deploy)
  else Except.ok { st with deployments := insertName deployment_name st.deployments }

/-- The method `create_service` (blind create of <pod_name>-svc). -/
def create_service (f : FaultSchedule) (pod_name : String) (st : K8sState) :
    Except (K8sState × ProvErr) K8sState :=
  if f PStep.service then Except.error (st, ProvErr.fault PStep.service)
  else if (pod_name ++ "-svc") ∈ st.services then
    Except.error (st, ProvErr.conflict PStep.service)
  else Except.ok { st with services := insertName (pod_name ++ "-svc") st.services }

/-- The method `create_ingress` (blind create of servertap-<pod_name>-ingress). -/
def create_ingress (f : FaultSchedule) (pod_name : String) (st : K8sState) :
    Except (K8sState × ProvErr) K8sState :=
  if f PStep.ingress then Except.error (st, ProvErr.fault PStep.ingress)
  else if ("servertap-" ++ pod_name ++ "-ingress") ∈ st.ingresses then
    Except.error (st, ProvErr.conflict PStep.ingress)
  else Except.ok
    { st with ingresses := insertName ("servertap-" ++ pod_name ++ "-ingress") st.ingresses }

/-- The storage block of `create_minecraft_resources` (lines 405-409 of
k8s_manager.py): `if not self.pvc_exists(pvc_name)` then run the directory
job, create the volume, create and await the claim; otherwise reuse. -/
def ensure_storage (f : FaultSchedule) (pvc_name : String) (st : K8sState) :
    Except (K8sState × ProvErr) K8sState :=
  match pvc_exists f pvc_name st with
  | Except.error err => Except.error err
  | Except.ok true => Except.ok st
  | Except.ok false =>
    match create_nfs_directory_job f pvc_name st with
    | Except.error err => Except.error err
    | Except.ok sta =>
      match create_persistent_volume f pvc_name sta with
      | Except.error err => Except.error err
      | Except.ok stb => create_persistent_volume_claim f pvc_name stb

/-- The orchestrating method `create_minecraft_resources`: sanitize both
names, clean up stale ephemeral resources (a fallible step whose four
delete calls are driven by this invocation's schedule `g0`), upsert the
shared config object, create the per-server config object, ensure storage
(short-circuiting at the claim-existence probe), then create deployment,
service and ingress, and return the success dictionary of main.py's
contract. -/
def create_minecraft_resources (f g0 : FaultSchedule)
    (domain pod_name pvc_name api_key : String)
    (st0 : K8sState) : Except (K8sState × ProvErr) (K8sState × ProvResult) :=
  let deployment_name := sanitize_name pod_name
  let pvcName := sanitize_name pvc_name
  match cleanup_ephemeral_resources g0 deployment_name st0 with
  | Except.error err => Except.error err
  | Except.ok st1 =>
    match create_or_update_paper_configmap f st1 with
    | Except.error err => Except.error err
    | Except.ok st2 =>
      match create_servertap_configmap f deployment_name st2 with
      | Except.error err => Except.error err
      | Except.ok st3 =>
        match ensure_storage f pvcName st3 with
        | Except.error err => Except.error err
        | Except.ok st4 =>
          match create_deployment f deployment_name st4 with
          | Except.error err => Except.error err
          | Except.ok st5 =>
            match create_service f deployment_name st5 with
            | Except.error err => Except.error err
            | Except.ok st6 =>
              match create_ingress f deployment_name st6 with
              | Except.error err => Except.error err
              | Except.ok st7 =>
                Except.ok (st7,
                  { status := "success"
                    pod_name := deployment_name
                    pvc_name := pvcName
                    game_url := deployment_name ++ "." ++ domain
                    api_url := "http://" ++ deployment_name ++ "-api." ++ domain })

/-- The facade method `MinecraftServerManager.create_server`: call the
orchestrator; on any failure run the compensating ephemeral cleanup with the
raw (unsanitized) pod name exactly as resource_manager.py does, then
re-raise the original error.  The compensation itself is fallible (schedule
`gc`): in Python an exception raised inside the except block propagates in
place of the pending `raise e`, so a failing compensating delete replaces
the original error. -/
def create_server (f g0 gc : FaultSchedule) (domain pod_name pvc_name api_key : String)
    (st0 : K8sState) : Except (K8sState × ProvErr) (K8sState × ProvResult) :=
  match create_minecraft_resources f g0 domain pod_name pvc_name api_key st0 with
  | Except.ok r => Except.ok r
  | Except.error (st, e) =>
    match cleanup_ephemeral_resources gc pod_name st with
    | Except.ok stc => Except.error (stc, e)
    | Except.error (stc, e2) => Except.error (stc, e2)

/-- The method `delete_persistent_data`: sanitize the raw claim name, delete
the claim then the volume pv-<name>; each delete tolerates a 404 and
re-raises any other failure. -/
def delete_persistent_data (g : FaultSchedule) (pvc_name : String) (st : K8sState) :
    Except (K8sState × ProvErr) K8sState :=
  let v := sanitize_name pvc_name
  if g PStep.delPVC then Except.error (st, ProvErr.fault PStep.delPVC)
  else
    let st1 := { st with pvcs := removeName v st.pvcs }
    if g PStep.delPV then Except.error (st1, ProvErr.fault PStep.delPV)
    else Except.ok { st1 with pvs := removeName ("pv-" ++ v) st1.pvs }

/-- The method `cleanup_all_resources`: sanitize both raw names, delete the
ephemeral set, then delete the persistent data (which sanitizes its argument
once more, exactly as in the source); a delete failure anywhere aborts the
remaining deletes and propagates. -/
def cleanup_all_resources (g : FaultSchedule) (pod_name pvc_name : String)
    (st : K8sState) : Except (K8sState × ProvErr) K8sState :=
  let p := sanitize_name pod_name
  let v := sanitize_name pvc_name
  match cleanup_ephemeral_resources g p st with
  | Except.error err => Except.error err
  | Except.ok st1 => delete_persistent_data g v st1

/-! ## The pause endpoint (main.py) and the facade method table
(resource_manager.py)

main.py's pause endpoint runs `server_manager.pause_server(pod_name=...)`
inside a try/except that maps any exception to an HTTP 500 carrying the
exception text.  Python resolves `server_manager.pause_server` by attribute
lookup on the `MinecraftServerManager` instance; the class body defines no
such method, so the lookup raises AttributeError. -/

/-- The methods the class `MinecraftServerManager` actually defines
(resource_manager.py). -/
def minecraftServerManagerMethods : List String :=
  ["create_server", "delete_server", "list_all_servers_data", "delete_server_data"]

/-- Result of Python attribute lookup for `pause_server` on the facade:
`none`, because the class defines no method of that name.  (A present method
would be a state transformer returning the acknowledgement dictionary.) -/
def pause_server_method : Option (String → K8sState → K8sState × String) := none

/-- An HTTP handler outcome of main.py: either the handler's return value or
the HTTP 500 produced by the surrounding try/except. -/
inductive HttpResult (α : Type)
  | ok (a : α)
  | internalServerError (detail : String)
deriving DecidableEq

/-- The endpoint POST /k8s/server/pod_name/pause of main.py. -/
def pause_server_endpoint (pod_name : String) (st : K8sState) :
    HttpResult (K8sState × String) :=
  match pause_server_method with
  | some f => HttpResult.ok (f pod_name st)
  | none => HttpResult.internalServerError
      "AttributeError: MinecraftServerManager object has no attribute pause_server"

/-! ## Lock discipline of the shared-config upsert (k8s_manager.py)

`K8sManager.__init__` allocates `self._configmap_lock = threading.Lock()`;
`create_or_update_paper_configmap` then performs read followed by patch (when
the read finds the object) or read followed by create (when the read reports
404).  The method is modelled as the ordered trace of primitive actions it
performs, including any acquisition or release of the manager's lock: the
method body contains no `with self._configmap_lock` or acquire/release call,
so no lock action appears in either branch. -/

inductive CMAction
  | acquireLock
  | releaseLock
  | readConfigMap
  | patchConfigMap
  | createConfigMap
deriving DecidableEq, Repr

/-- Whether `K8sManager.__init__` allocates `_configmap_lock` (line 49). -/
def initAllocatesConfigmapLock : Bool := true

/-- Ordered action trace of one execution of
`create_or_update_paper_configmap`, by whether the shared object exists. -/
def paperConfigmapTrace (cmExists : Bool) : List CMAction :=
  if cmExists then [CMAction.readConfigMap, CMAction.patchConfigMap]
  else [CMAction.readConfigMap, CMAction.createConfigMap]

/-- A trace holds the lock throughout when every config-object action happens
while the lock is held, simulating the lock state along the trace from the
given initial state. -/
def allUnderLock : List CMAction → Bool → Bool
  | [], _ => true
  | CMAction.acquireLock :: r, _ => allUnderLock r true
  | CMAction.releaseLock :: r, _ => allUnderLock r false
  | _ :: r, held => held && allUnderLock r held

/-! ## The two polling waiters, in full detail

`_wait_for_pvc_bound` and `_wait_for_job_completion` both poll remote state
every 2 seconds against a 60-second deadline, so each performs at most
60 / 2 = 30 polls before raising the timeout error.  Each poll's remote
reads are supplied by an environment indexed by the iteration number; an
`ApiException` is either a 404 (`notFound`) or anything else (`other`). -/

inductive ApiErr
  | notFound
  | other
deriving DecidableEq, Repr

deriving instance DecidableEq for Except

/-- Poll interval in seconds (`time.sleep(2)`). -/
def pollIntervalSeconds : Nat := 2

/-- Wait deadline in seconds (`timeout: int = 60`). -/
def waitTimeoutSeconds : Nat := 60

/-- Maximal number of polls before the deadline check fails. -/
def maxPolls : Nat := waitTimeoutSeconds / pollIntervalSeconds

/-- Outcome of `_wait_for_pvc_bound`. -/
inductive PvcWaitOutcome
  | bound (iter : Nat)
  | apiFault (iter : Nat)
  | timedOut
deriving DecidableEq, Repr

/-- One run of the `_wait_for_pvc_bound` loop: at each iteration read the
claim; on phase Bound return, on a 404 retry, on any other read failure
re-raise; when the deadline elapses raise the timeout error.  The
environment gives each iteration's read outcome (the claim's phase). -/
def pvcWaitAux (env : Nat → Except ApiErr String) : Nat → Nat → PvcWaitOutcome
  | _, 0 => PvcWaitOutcome.timedOut
  | i, fuel + 1 =>
    match env i with
    | Except.error ApiErr.notFound => pvcWaitAux env (i + 1) fuel
    | Except.error ApiErr.other => PvcWaitOutcome.apiFault i
    | Except.ok phase =>
      if phase = "Bound" then PvcWaitOutcome.bound i
      else pvcWaitAux env (i + 1) fuel

/-- The method `_wait_for_pvc_bound`. -/
def wait_for_pvc_bound (env : Nat → Except ApiErr String) : PvcWaitOutcome :=
  pvcWaitAux env 0 maxPolls

/-- Job status as read from the platform. -/
inductive JobState
  | running
  | succeeded
  | failed
deriving DecidableEq, Repr

/-- Remote reads available to one iteration of `_wait_for_job_completion`:
the job object, the pod list for the job's label selector, and the log read
of the first listed pod. -/
structure JobPoll where
  jobRead : Except ApiErr JobState
  podsList : Except ApiErr (List String)
  logRead : Except ApiErr String
deriving DecidableEq

/-- Outcome of `_wait_for_job_completion`. -/
inductive JobWaitOutcome
  | completed (iter : Nat)
  | taskFailure (logs : Option String)
  | apiFault (iter : Nat)
  | timedOut
deriving DecidableEq, Repr

/-- One run of the `_wait_for_job_completion` loop, a faithful rendering of
the nested try/except of the source: the whole body, including the pod-list
and log reads done on observing a failed job, sits inside one
`except ApiException` handler that retries on 404 and re-raises otherwise,
while the job-failure `Exception` itself passes through that handler. -/
def jobWaitAux (env : Nat → JobPoll) : Nat → Nat → JobWaitOutcome
  | _, 0 => JobWaitOutcome.timedOut
  | i, fuel + 1 =>
    match (env i).jobRead with
    | Except.error ApiErr.notFound => jobWaitAux env (i + 1) fuel
    | Except.error ApiErr.other => JobWaitOutcome.apiFault i
    | Except.ok JobState.succeeded => JobWaitOutcome.completed i
    | Except.ok JobState.running => jobWaitAux env (i + 1) fuel
    | Except.ok JobState.failed =>
      match (env i).podsList with
      | Except.error ApiErr.notFound => jobWaitAux env (i + 1) fuel
      | Except.error ApiErr.other => JobWaitOutcome.apiFault i
      | Except.ok [] => JobWaitOutcome.taskFailure none
      | Except.ok (_ :: _) =>
        match (env i).logRead with
        | Except.error ApiErr.notFound => jobWaitAux env (i + 1) fuel
        | Except.error ApiErr.other => JobWaitOutcome.apiFault i
        | Except.ok logs => JobWaitOutcome.taskFailure (some logs)

/-- The method `_wait_for_job_completion`. -/
def wait_for_job_completion (env : Nat → JobPoll) : JobWaitOutcome :=
  jobWaitAux env 0 maxPolls

/-- The state carried by a sub-operation outcome, successful or not. -/
def carriedState : Except (K8sState × ProvErr) K8sState → K8sState
  | Except.ok st => st
  | Except.error (st, _) => st

/-- The state carried by a whole provisioning outcome. -/
def provOutcomeState : Except (K8sState × ProvErr) (K8sState × ProvResult) → K8sState
  | Except.ok (st, _) => st
  | Except.error (st, _) => st

/-- Storage is never destroyed: volumes and claims only grow and the shared
config object is never deleted. -/
def storagePreserved (s t : K8sState) : Prop :=
  s.pvs ⊆ t.pvs ∧ s.pvcs ⊆ t.pvcs ∧
  (paperConfigMapName ∈ s.configMaps → paperConfigMapName ∈ t.configMaps)

/-- Volumes, claims and jobs are unchanged, bit for bit. -/
def sameStorage (s t : K8sState) : Prop :=
  t.pvs = s.pvs ∧ t.pvcs = s.pvcs ∧ t.jobs = s.jobs

/-- A config-object operation leaves every other resource kind untouched. -/
def onlyConfigMapsChanged (s t : K8sState) : Prop :=
  t.deployments = s.deployments ∧ t.services = s.services ∧ t.ingresses = s.ingresses ∧
  t.pvs = s.pvs ∧ t.pvcs = s.pvcs ∧ t.jobs = s.jobs ∧ s.configMaps ⊆ t.configMaps

/-- A storage operation leaves ephemeral resources and config objects
untouched and only ever adds volumes and claims. -/
def onlyStorageChanged (s t : K8sState) : Prop :=
  t.deployments = s.deployments ∧ t.services = s.services ∧ t.ingresses = s.ingresses ∧
  t.configMaps = s.configMaps ∧ s.pvs ⊆ t.pvs ∧ s.pvcs ⊆ t.pvcs

/-- An ephemeral creation leaves storage, jobs and config objects untouched. -/
def onlyEphemeralAdded (s t : K8sState) : Prop :=
  t.pvs = s.pvs ∧ t.pvcs = s.pvcs ∧ t.jobs = s.jobs ∧ t.configMaps = s.configMaps ∧
  s.deployments ⊆ t.deployments ∧ s.services ⊆ t.services ∧ s.ingresses ⊆ t.ingresses

/-- One poll of the claim read that keeps the PVC wait looping: a 404 or a
phase other than Bound. -/
def pvcRetry (env : Nat → Except ApiErr String) (m : Nat) : Prop :=
  env m = Except.error ApiErr.notFound ∨ ∃ ph, env m = Except.ok ph ∧ ph ≠ "Bound"

/-- One poll that keeps the job wait looping: a 404 on the job read, a still
running job, or a failed job whose diagnostic reads hit a 404 (the source
swallows that 404 and retries the whole check). -/
def jobLoops (env : Nat → JobPoll) (m : Nat) : Prop :=
  (env m).jobRead = Except.error ApiErr.notFound ∨
  (env m).jobRead = Except.ok JobState.running ∨
  ((env m).jobRead = Except.ok JobState.failed ∧
    ((env m).podsList = Except.error ApiErr.notFound ∨
      ∃ ps, (env m).podsList = Except.ok ps ∧ ps ≠ [] ∧
        (env m).logRead = Except.error ApiErr.notFound))


/-! ## Concrete runs used by the witnesses -/

/-- Schedule on which every remote call succeeds. -/
def noFault : FaultSchedule := fun _ => false

/-- Schedule failing exactly the service-creation call. -/
def serviceFault : FaultSchedule := fun s => decide (s = PStep.service)

/-- Schedule failing exactly the ingress-creation call. -/
def ingressFault : FaultSchedule := fun s => decide (s = PStep.ingress)

/-- Schedule failing exactly the service-deletion call. -/
def delServiceFault : FaultSchedule := fun s => decide (s = PStep.delService)

/-- An empty cluster. -/
def emptyState : K8sState := ⟨[], [], [], [], [], [], []⟩

/-- A cluster already holding the claim named bar. -/
def stateWithBar : K8sState := ⟨[], [], [], [], [], ["bar"], []⟩

/-- The intermediate state at which a provision of foo/bar from the empty
cluster fails when the service-creation call faults. -/
def serviceFailState : K8sState :=
  ⟨["foo"], [], [], ["servertap-config-foo", "paper-global-config"],
    ["pv-bar"], ["bar"], ["create-nfs-dir-bar"]⟩

/-- Final state of a fault-free provision of foo/bar from the empty cluster. -/
def fooBarState : K8sState :=
  ⟨["foo"], ["foo-svc"], ["servertap-foo-ingress"],
    ["servertap-config-foo", "paper-global-config"],
    ["pv-bar"], ["bar"], ["create-nfs-dir-bar"]⟩

/-- Result dictionary of that fault-free provision. -/
def fooBarResult : ProvResult :=
  ⟨"success", "foo", "bar", "foo.mc.msdca.shop", "http://foo-api.mc.msdca.shop"⟩

/-- The intermediate state at which a provision of foo/bar from the empty
cluster fails when the ingress-creation call faults. -/
def c2IngressFailState : K8sState :=
  ⟨["foo"], ["foo-svc"], [], ["servertap-config-foo", "paper-global-config"],
    ["pv-bar"], ["bar"], ["create-nfs-dir-bar"]⟩

/-- The state left behind when, compensating for that ingress failure, the
service-deletion call faults after the deployment was already deleted. -/
def c2PartialCompState : K8sState :=
  ⟨[], ["foo-svc"], [], ["servertap-config-foo", "paper-global-config"],
    ["pv-bar"], ["bar"], ["create-nfs-dir-bar"]⟩

/-- The fully rolled-back state: a successful compensation applied to the
service-creation failure state (also the result of a successful ephemeral
cleanup of foo from the fault-free final state). -/
def rolledBackState : K8sState :=
  ⟨[], [], [], ["paper-global-config"], ["pv-bar"], ["bar"], ["create-nfs-dir-bar"]⟩

/-- The state after a successful full teardown of foo/bar from the
fault-free final state. -/
def tornDownState : K8sState :=
  ⟨[], [], [], ["paper-global-config"], [], [], ["create-nfs-dir-bar"]⟩

/-- Poll environment: the claim binds at the third poll. -/
def envPvcBoundAt2 : Nat → Except ApiErr String :=
  fun i => if i = 2 then Except.ok "Bound" else Except.ok "Pending"

/-- Poll environment: the claim is never visible. -/
def envPvcNotFound : Nat → Except ApiErr String := fun _ => Except.error ApiErr.notFound

/-- Poll environment: the claim read fails with a non-404 error. -/
def envPvcFault : Nat → Except ApiErr String := fun _ => Except.error ApiErr.other

/-- Poll environment: the job succeeded immediately. -/
def envJobSucceeded : Nat → JobPoll :=
  fun _ => ⟨Except.ok JobState.succeeded, Except.ok [], Except.ok ""⟩

/-- Poll environment: the job runs forever. -/
def envJobRunning : Nat → JobPoll :=
  fun _ => ⟨Except.ok JobState.running, Except.ok [], Except.ok ""⟩

/-- Poll environment: the job read fails with a non-404 error. -/
def envJobReadFault : Nat → JobPoll :=
  fun _ => ⟨Except.error ApiErr.other, Except.ok [], Except.ok ""⟩

/-- Poll environment: the job failed and its logs are readable. -/
def envJobLogsOk : Nat → JobPoll :=
  fun _ => ⟨Except.ok JobState.failed, Except.ok ["pod-0"], Except.ok "boom"⟩

/-- Poll environment: the job failed and the log read fails with a non-404
error. -/
def envJobLogFault : Nat → JobPoll :=
  fun _ => ⟨Except.ok JobState.failed, Except.ok ["pod-0"], Except.error ApiErr.other⟩

/-- Poll environment: the job failed and the log read keeps returning 404. -/
def envJobLogMissing : Nat → JobPoll :=
  fun _ => ⟨Except.ok JobState.failed, Except.ok ["pod-0"], Except.error ApiErr.notFound⟩

/-! ## Lemmas -/

lemma headNotDash_congr {l m : List Char} (h : l.head? = m.head?) :
    headNotDash l = headNotDash m := by
  cases l <;> cases m <;> simp_all [headNotDash]

lemma asciiLower_of_allowed {c : Char} (h : allowedChar c = true) : asciiLower c = c := by
  unfold allowedChar at h
  unfold asciiLower
  simp only [Bool.or_eq_true, Bool.and_eq_true, decide_eq_true_eq, beq_iff_eq] at h
  have hno : ¬ (65 ≤ c.toNat ∧ c.toNat ≤ 90) := by
    intro hc
    cases h with
    | inr h1 => omega
    | inl h2 =>
      cases h2 with
      | inl h1 => omega
      | inr h1 => omega
  simp [hno]

lemma map_asciiLower_of_allowed {l : List Char} (h : ∀ c ∈ l, allowedChar c = true) :
    l.map asciiLower = l := by
  induction l with
  | nil => rfl
  | cons a t ih =>
    simp only [List.map_cons]
    rw [asciiLower_of_allowed (h a (List.mem_cons_self a t)),
      ih (fun c hc => h c (List.mem_cons_of_mem a hc))]

lemma filter_of_allowed {l : List Char} (h : ∀ c ∈ l, allowedChar c = true) :
    List.filter allowedChar l = l :=
  List.filter_eq_self.mpr h

lemma mem_dropDash {c : Char} : ∀ {l : List Char}, c ∈ dropDash l → c ∈ l := by
  intro l
  induction l with
  | nil => intro h; simp [dropDash] at h
  | cons a t ih =>
    intro h
    cases ha : (a == '-') with
    | true =>
      rw [dropDash, List.dropWhile_cons, ha, if_pos rfl] at h
      exact List.mem_cons_of_mem a (ih h)
    | false =>
      rw [dropDash, List.dropWhile_cons, ha] at h
      simpa using h

lemma mem_stripDash {c : Char} {l : List Char} (h : c ∈ stripDash l) : c ∈ l := by
  unfold stripDash at h
  rw [List.mem_reverse] at h
  have h2 := mem_dropDash h
  rw [List.mem_reverse] at h2
  exact mem_dropDash h2

lemma mem_squashDash {c : Char} : ∀ {l : List Char}, c ∈ squashDash l → c ∈ l := by
  intro l
  induction l with
  | nil => intro h; simp [squashDash] at h
  | cons a t ih =>
    intro h
    cases t with
    | nil => simpa [squashDash] using h
    | cons b rest =>
      cases hd : (a == '-' && b == '-') with
      | true =>
        rw [squashDash, hd, if_pos rfl] at h
        exact List.mem_cons_of_mem a (ih h)
      | false =>
        rw [squashDash, hd] at h
        simp only [Bool.false_eq_true, if_false, List.mem_cons] at h
        rcases h with h | h
        · exact h ▸ List.mem_cons_self a _
        · exact List.mem_cons_of_mem a (ih h)

lemma dropDash_headNotDash (l : List Char) : headNotDash (dropDash l) = true := by
  induction l with
  | nil => rfl
  | cons a t ih =>
    cases ha : (a == '-') with
    | true =>
      rw [dropDash, List.dropWhile_cons, ha, if_pos rfl]
      exact ih
    | false =>
      rw [dropDash, List.dropWhile_cons, ha]
      simpa [headNotDash] using ha

lemma dropDash_eq_self {l : List Char} (h : headNotDash l = true) : dropDash l = l := by
  cases l with
  | nil => rfl
  | cons a t =>
    have ha : (a == '-') = false := by
      simpa [headNotDash] using h
    rw [dropDash, List.dropWhile_cons, ha]
    simp

lemma getLast?_cons_of_ne_nil {a : Char} {l : List Char} (h : l ≠ []) :
    (a :: l).getLast? = l.getLast? := by
  cases l with
  | nil => exact absurd rfl h
  | cons b t => exact List.getLast?_cons_cons

lemma dropWhile_getLast? {p : Char → Bool} : ∀ {l : List Char},
    List.dropWhile p l ≠ [] → (List.dropWhile p l).getLast? = l.getLast? := by
  intro l
  induction l with
  | nil => intro h; simp at h
  | cons a t ih =>
    intro h
    cases ha : p a with
    | true =>
      rw [List.dropWhile_cons, ha, if_pos rfl] at h ⊢
      have ht : t ≠ [] := by
        intro he
        rw [he] at h
        simp at h
      rw [ih h, getLast?_cons_of_ne_nil ht]
    | false =>
      rw [List.dropWhile_cons, ha]
      simp

lemma dropDash_getLast? {l : List Char} (h : dropDash l ≠ []) :
    (dropDash l).getLast? = l.getLast? :=
  dropWhile_getLast? h

lemma stripDash_headNotDash (l : List Char) : headNotDash (stripDash l) = true := by
  unfold stripDash
  by_cases hYnil : dropDash ((dropDash l).reverse) = []
  · rw [hYnil]
    rfl
  · have h1 : (dropDash ((dropDash l).reverse)).reverse.head? = (dropDash l).head? := by
      rw [List.head?_reverse, dropDash_getLast? hYnil, List.getLast?_reverse]
    rw [headNotDash_congr h1]
    exact dropDash_headNotDash l

lemma stripDash_lastNotDash (l : List Char) : lastNotDash (stripDash l) = true := by
  unfold stripDash lastNotDash
  rw [List.reverse_reverse]
  exact dropDash_headNotDash _

lemma stripDash_eq_self {l : List Char} (h1 : headNotDash l = true)
    (h2 : lastNotDash l = true) : stripDash l = l := by
  unfold stripDash
  rw [dropDash_eq_self h1]
  rw [dropDash_eq_self h2, List.reverse_reverse]

lemma squashDash_head? (l : List Char) : (squashDash l).head? = l.head? := by
  induction l with
  | nil => rfl
  | cons a t ih =>
    cases t with
    | nil => rfl
    | cons b rest =>
      cases hd : (a == '-' && b == '-') with
      | true =>
        have ha : a = '-' := eq_of_beq ((Bool.and_eq_true _ _).mp hd).1
        have hb : b = '-' := eq_of_beq ((Bool.and_eq_true _ _).mp hd).2
        rw [squashDash, hd, if_pos rfl, ih]
        simp [ha, hb]
      | false =>
        rw [squashDash, hd]
        simp

lemma squashDash_ne_nil {l : List Char} (h : l ≠ []) : squashDash l ≠ [] := by
  intro hc
  have hh := squashDash_head? l
  rw [hc] at hh
  cases l with
  | nil => exact h rfl
  | cons a t => simp at hh

lemma squashDash_getLast? : ∀ {l : List Char}, l ≠ [] →
    (squashDash l).getLast? = l.getLast? := by
  intro l
  induction l with
  | nil => intro h; exact absurd rfl h
  | cons a t ih =>
    intro _
    cases t with
    | nil => rfl
    | cons b rest =>
      cases hd : (a == '-' && b == '-') with
      | true =>
        rw [squashDash, hd, if_pos rfl, ih (by simp), List.getLast?_cons_cons]
      | false =>
        rw [squashDash, hd]
        simp only [Bool.false_eq_true, if_false]
        have hne : squashDash (b :: rest) ≠ [] := squashDash_ne_nil (by simp)
        rw [getLast?_cons_of_ne_nil hne, ih (by simp), List.getLast?_cons_cons]

lemma squashDash_headNotDash {l : List Char} (h : headNotDash l = true) :
    headNotDash (squashDash l) = true := by
  rw [headNotDash_congr (squashDash_head? l)]
  exact h

lemma squashDash_lastNotDash {l : List Char} (h : lastNotDash l = true) :
    lastNotDash (squashDash l) = true := by
  by_cases hl : l = []
  · rw [hl]
    rfl
  · unfold lastNotDash at h ⊢
    have hc : (squashDash l).reverse.head? = l.reverse.head? := by
      rw [List.head?_reverse, List.head?_reverse]
      exact squashDash_getLast? hl
    rw [headNotDash_congr hc]
    exact h

lemma squashDash_noDoubleDash (l : List Char) : noDoubleDash (squashDash l) = true := by
  induction l with
  | nil => rfl
  | cons a t ih =>
    cases t with
    | nil => rfl
    | cons b rest =>
      cases hd : (a == '-' && b == '-') with
      | true =>
        rw [squashDash, hd, if_pos rfl]
        exact ih
      | false =>
        rw [squashDash, hd]
        simp only [Bool.false_eq_true, if_false]
        cases hq : squashDash (b :: rest) with
        | nil => rfl
        | cons z zs =>
          have hz : z = b := by
            have hh := squashDash_head? (b :: rest)
            rw [hq] at hh
            simpa using hh
          rw [noDoubleDash, Bool.and_eq_true]
          constructor
          · rw [hz, hd]
            rfl
          · rw [← hq]
            exact ih

lemma squashDash_eq_self : ∀ {l : List Char}, noDoubleDash l = true →
    squashDash l = l := by
  intro l
  induction l with
  | nil => intro _; rfl
  | cons a t ih =>
    intro h
    cases t with
    | nil => rfl
    | cons b rest =>
      rw [noDoubleDash, Bool.and_eq_true] at h
      have hd : (a == '-' && b == '-') = false := by
        have := h.1
        rwa [Bool.not_eq_true'] at this
      rw [squashDash, hd]
      simp only [Bool.false_eq_true, if_false]
      rw [ih h.2]

/-- Shared characterization: the output of `sanitize_name` is already fully
normalized, so a second pass is the identity. -/
lemma sanitize_name_idem (s : String) :
    sanitize_name (sanitize_name s) = sanitize_name s := by
  unfold sanitize_name
  set L := squashDash (stripDash (List.filter allowedChar (s.data.map asciiLower))) with hL
  have hall : ∀ c ∈ L, allowedChar c = true := by
    intro c hc
    have h1 := mem_squashDash (hL ▸ hc)
    have h2 := mem_stripDash h1
    exact List.of_mem_filter h2
  have hdata : (String.mk L).data = L := rfl
  rw [hdata, map_asciiLower_of_allowed hall, filter_of_allowed hall]
  have hhead : headNotDash L = true := by
    rw [hL]
    exact squashDash_headNotDash (stripDash_headNotDash _)
  have hlast : lastNotDash L = true := by
    rw [hL]
    exact squashDash_lastNotDash (stripDash_lastNotDash _)
  rw [stripDash_eq_self hhead hlast]
  have hnd : noDoubleDash L = true := by
    rw [hL]
    exact squashDash_noDoubleDash _
  rw [squashDash_eq_self hnd]

/-! ## Infrastructure lemmas about the state model -/

lemma mem_removeName {n m : String} {l : List String} :
    m ∈ removeName n l ↔ m ∈ l ∧ m ≠ n := by
  unfold removeName
  simp [List.mem_filter]

lemma not_mem_removeName (n : String) (l : List String) : n ∉ removeName n l := by
  simp [mem_removeName]

lemma mem_insertName {n m : String} {l : List String} :
    m ∈ insertName n l ↔ m = n ∨ m ∈ l := by
  unfold insertName
  by_cases h : n ∈ l
  · simp only [h, if_true]
    constructor
    · exact Or.inr
    · intro hc
      cases hc with
      | inl he => exact he ▸ h
      | inr hm => exact hm
  · simp only [h, if_false, List.mem_cons]

lemma mem_insertName_self (n : String) (l : List String) : n ∈ insertName n l :=
  mem_insertName.mpr (Or.inl rfl)

lemma subset_insertName (n : String) (l : List String) : l ⊆ insertName n l :=
  fun _ hm => mem_insertName.mpr (Or.inr hm)

/-- The shared config object has a name different from every per-server
config object name. -/
lemma paper_ne_servertap (p : String) :
    paperConfigMapName ≠ "servertap-config-" ++ p := by
  intro h
  unfold paperConfigMapName at h
  have h2 := congrArg String.data h
  rw [String.data_append] at h2
  have h3 := congrArg List.head? h2
  simp at h3

lemma storagePreserved_refl (s : K8sState) : storagePreserved s s :=
  ⟨List.Subset.refl _, List.Subset.refl _, id⟩

lemma storagePreserved_trans {s t u : K8sState} (h1 : storagePreserved s t)
    (h2 : storagePreserved t u) : storagePreserved s u :=
  ⟨h1.1.trans h2.1, h1.2.1.trans h2.2.1, fun hp => h2.2.2 (h1.2.2 hp)⟩

lemma sameStorage_refl (s : K8sState) : sameStorage s s := ⟨rfl, rfl, rfl⟩

lemma sameStorage_trans {s t u : K8sState} (h1 : sameStorage s t)
    (h2 : sameStorage t u) : sameStorage s u :=
  ⟨h2.1.trans h1.1, h2.2.1.trans h1.2.1, h2.2.2.trans h1.2.2⟩

lemma onlyConfigMapsChanged_storagePreserved {s t : K8sState}
    (h : onlyConfigMapsChanged s t) : storagePreserved s t := by
  obtain ⟨_, _, _, h4, h5, _, h7⟩ := h
  exact ⟨h4 ▸ List.Subset.refl _, h5 ▸ List.Subset.refl _, fun hp => h7 hp⟩

lemma onlyStorageChanged_storagePreserved {s t : K8sState}
    (h : onlyStorageChanged s t) : storagePreserved s t := by
  obtain ⟨_, _, _, h4, h5, h6⟩ := h
  exact ⟨h5, h6, fun hp => h4 ▸ hp⟩

lemma onlyEphemeralAdded_storagePreserved {s t : K8sState}
    (h : onlyEphemeralAdded s t) : storagePreserved s t := by
  obtain ⟨h1, h2, _, h4, _, _, _⟩ := h
  exact ⟨h1 ▸ List.Subset.refl _, h2 ▸ List.Subset.refl _, fun hp => h4 ▸ hp⟩

lemma onlyConfigMapsChanged_sameStorage {s t : K8sState}
    (h : onlyConfigMapsChanged s t) : sameStorage s t :=
  ⟨h.2.2.2.1, h.2.2.2.2.1, h.2.2.2.2.2.1⟩

lemma onlyEphemeralAdded_sameStorage {s t : K8sState}
    (h : onlyEphemeralAdded s t) : sameStorage s t :=
  ⟨h.1, h.2.1, h.2.2.1⟩

lemma cleanup_sameStorage (g : FaultSchedule) (p : String) (st : K8sState) :
    sameStorage st (carriedState (cleanup_ephemeral_resources g p st)) := by
  unfold cleanup_ephemeral_resources
  split_ifs <;> exact ⟨rfl, rfl, rfl⟩

lemma cleanup_storagePreserved (g : FaultSchedule) (p : String) (st : K8sState) :
    storagePreserved st (carriedState (cleanup_ephemeral_resources g p st)) := by
  unfold cleanup_ephemeral_resources
  split_ifs <;> refine ⟨List.Subset.refl _, List.Subset.refl _, fun hp => ?_⟩ <;>
    first
      | exact hp
      | exact mem_removeName.mpr ⟨hp, paper_ne_servertap p⟩

/-- Shape of a successful ephemeral cleanup: all four derived names removed,
no other field touched. -/
lemma cleanup_ok {g : FaultSchedule} {p : String} {st st' : K8sState}
    (h : cleanup_ephemeral_resources g p st = Except.ok st') :
    st' = { st with
      deployments := removeName p st.deployments
      services := removeName (p ++ "-svc") st.services
      ingresses := removeName ("servertap-" ++ p ++ "-ingress") st.ingresses
      configMaps := removeName ("servertap-config-" ++ p) st.configMaps } := by
  unfold cleanup_ephemeral_resources at h
  split_ifs at h <;> simp_all

/-- Shape of a successful persistent-data deletion: the sanitized claim and
its volume removed, no other field touched. -/
lemma delete_persistent_data_ok {g : FaultSchedule} {v : String} {st st' : K8sState}
    (h : delete_persistent_data g v st = Except.ok st') :
    st' = { st with
      pvcs := removeName (sanitize_name v) st.pvcs
      pvs := removeName ("pv-" ++ sanitize_name v) st.pvs } := by
  unfold delete_persistent_data at h
  split_ifs at h <;> simp_all

lemma paper_frame (f : FaultSchedule) (st : K8sState) :
    onlyConfigMapsChanged st (carriedState (create_or_update_paper_configmap f st)) := by
  unfold create_or_update_paper_configmap
  split_ifs <;>
    simp [carriedState, onlyConfigMapsChanged, subset_insertName, List.Subset.refl]

lemma servertap_frame (f : FaultSchedule) (p : String) (st : K8sState) :
    onlyConfigMapsChanged st (carriedState (create_servertap_configmap f p st)) := by
  unfold create_servertap_configmap
  split_ifs <;>
    simp [carriedState, onlyConfigMapsChanged, subset_insertName, List.Subset.refl]

lemma carried_ok (st : K8sState) : carriedState (Except.ok st) = st := rfl

lemma carried_err (st : K8sState) (e : ProvErr) :
    carriedState (Except.error (st, e)) = st := rfl

lemma onlyStorageChanged_refl (s : K8sState) : onlyStorageChanged s s :=
  ⟨rfl, rfl, rfl, rfl, List.Subset.refl _, List.Subset.refl _⟩

lemma onlyStorageChanged_trans {s t u : K8sState} (h1 : onlyStorageChanged s t)
    (h2 : onlyStorageChanged t u) : onlyStorageChanged s u :=
  ⟨h2.1.trans h1.1, h2.2.1.trans h1.2.1, h2.2.2.1.trans h1.2.2.1,
    h2.2.2.2.1.trans h1.2.2.2.1, h1.2.2.2.2.1.trans h2.2.2.2.2.1,
    h1.2.2.2.2.2.trans h2.2.2.2.2.2⟩

lemma pvc_exists_err {f : FaultSchedule} {v : String} {st st' : K8sState} {e : ProvErr}
    (h : pvc_exists f v st = Except.error (st', e)) : st' = st := by
  unfold pvc_exists at h
  split_ifs at h <;> simp_all

lemma nfs_job_frame (f : FaultSchedule) (v : String) (st : K8sState) :
    onlyStorageChanged st (carriedState (create_nfs_directory_job f v st)) := by
  unfold create_nfs_directory_job
  split_ifs <;>
    simp [carriedState, onlyStorageChanged, subset_insertName, List.Subset.refl]

lemma pv_frame (f : FaultSchedule) (v : String) (st : K8sState) :
    onlyStorageChanged st (carriedState (create_persistent_volume f v st)) := by
  unfold create_persistent_volume
  split_ifs <;>
    simp [carriedState, onlyStorageChanged, subset_insertName, List.Subset.refl]

lemma pvc_claim_frame (f : FaultSchedule) (v : String) (st : K8sState) :
    onlyStorageChanged st (carriedState (create_persistent_volume_claim f v st)) := by
  unfold create_persistent_volume_claim
  split_ifs <;>
    simp [carriedState, onlyStorageChanged, subset_insertName, List.Subset.refl]

lemma ensure_storage_frame (f : FaultSchedule) (v : String) (st : K8sState) :
    onlyStorageChanged st (carriedState (ensure_storage f v st)) := by
  cases hprobe : pvc_exists f v st with
  | error err =>
    obtain ⟨st', e⟩ := err
    have he : st' = st := pvc_exists_err hprobe
    subst he
    simp only [ensure_storage, hprobe, carried_err]
    exact onlyStorageChanged_refl st'
  | ok b =>
    cases b with
    | true =>
      simp only [ensure_storage, hprobe, carried_ok]
      exact onlyStorageChanged_refl st
    | false =>
      cases hj : create_nfs_directory_job f v st with
      | error err =>
        have h1 := nfs_job_frame f v st
        rw [hj] at h1
        simp only [ensure_storage, hprobe, hj]
        exact h1
      | ok sta =>
        have h1 := nfs_job_frame f v st
        rw [hj, carried_ok] at h1
        cases hpv : create_persistent_volume f v sta with
        | error err =>
          have h2 := pv_frame f v sta
          rw [hpv] at h2
          simp only [ensure_storage, hprobe, hj, hpv]
          exact onlyStorageChanged_trans h1 h2
        | ok stb =>
          have h2 := pv_frame f v sta
          rw [hpv, carried_ok] at h2
          have h3 := pvc_claim_frame f v stb
          simp only [ensure_storage, hprobe, hj, hpv]
          exact onlyStorageChanged_trans (onlyStorageChanged_trans h1 h2) h3

lemma deploy_frame (f : FaultSchedule) (p : String) (st : K8sState) :
    onlyEphemeralAdded st (carriedState (create_deployment f p st)) := by
  unfold create_deployment
  split_ifs <;>
    simp [carriedState, onlyEphemeralAdded, subset_insertName, List.Subset.refl]

lemma service_frame (f : FaultSchedule) (p : String) (st : K8sState) :
    onlyEphemeralAdded st (carriedState (create_service f p st)) := by
  unfold create_service
  split_ifs <;>
    simp [carriedState, onlyEphemeralAdded, subset_insertName, List.Subset.refl]

lemma ingress_frame (f : FaultSchedule) (p : String) (st : K8sState) :
    onlyEphemeralAdded st (carriedState (create_ingress f p st)) := by
  unfold create_ingress
  split_ifs <;>
    simp [carriedState, onlyEphemeralAdded, subset_insertName, List.Subset.refl]

/-! ## Success shapes of the individual operations -/

lemma paper_ok {f : FaultSchedule} {st st' : K8sState}
    (h : create_or_update_paper_configmap f st = Except.ok st') :
    st' = st ∨
      st' = { st with configMaps := insertName paperConfigMapName st.configMaps } := by
  unfold create_or_update_paper_configmap at h
  split_ifs at h <;> simp_all

lemma paper_err {f : FaultSchedule} {st st' : K8sState} {e : ProvErr}
    (h : create_or_update_paper_configmap f st = Except.error (st', e)) : st' = st := by
  unfold create_or_update_paper_configmap at h
  split_ifs at h <;> simp_all

lemma servertap_ok {f : FaultSchedule} {p : String} {st st' : K8sState}
    (h : create_servertap_configmap f p st = Except.ok st') :
    st' = { st with configMaps := insertName ("servertap-config-" ++ p) st.configMaps } := by
  unfold create_servertap_configmap at h
  split_ifs at h <;> simp_all

lemma pvc_exists_ok {f : FaultSchedule} {v : String} {st : K8sState} {b : Bool}
    (h : pvc_exists f v st = Except.ok b) : b = decide (v ∈ st.pvcs) := by
  unfold pvc_exists at h
  split_ifs at h <;> simp_all

lemma nfs_job_ok {f : FaultSchedule} {v : String} {st st' : K8sState}
    (h : create_nfs_directory_job f v st = Except.ok st') :
    st' = { st with jobs := (insertName ("create-nfs-dir-" ++ v)
      (removeName ("create-nfs-dir-" ++ v) st.jobs)) } := by
  unfold create_nfs_directory_job at h
  split_ifs at h <;> simp_all

lemma pv_ok {f : FaultSchedule} {v : String} {st st' : K8sState}
    (h : create_persistent_volume f v st = Except.ok st') :
    (st' = st ∧ ("pv-" ++ v) ∈ st.pvs) ∨
      st' = { st with pvs := insertName ("pv-" ++ v) st.pvs } := by
  unfold create_persistent_volume at h
  split_ifs at h <;> simp_all

lemma pvc_claim_ok {f : FaultSchedule} {v : String} {st st' : K8sState}
    (h : create_persistent_volume_claim f v st = Except.ok st') :
    st' = { st with pvcs := insertName v st.pvcs } := by
  unfold create_persistent_volume_claim at h
  split_ifs at h <;> simp_all

lemma deploy_ok {f : FaultSchedule} {p : String} {st st' : K8sState}
    (h : create_deployment f p st = Except.ok st') :
    st' = { st with deployments := insertName p st.deployments } := by
  unfold create_deployment at h
  split_ifs at h <;> simp_all

lemma service_ok {f : FaultSchedule} {p : String} {st st' : K8sState}
    (h : create_service f p st = Except.ok st') :
    st' = { st with services := insertName (p ++ "-svc") st.services } := by
  unfold create_service at h
  split_ifs at h <;> simp_all

lemma ingress_ok {f : FaultSchedule} {p : String} {st st' : K8sState}
    (h : create_ingress f p st = Except.ok st') :
    st' = { st with ingresses := (insertName ("servertap-" ++ p ++ "-ingress") st.ingresses) } := by
  unfold create_ingress at h
  split_ifs at h <;> simp_all

/-- A successful storage step always ends with the claim present. -/
lemma ensure_storage_ok_pvc_mem {f : FaultSchedule} {v : String} {st st' : K8sState}
    (h : ensure_storage f v st = Except.ok st') : v ∈ st'.pvcs := by
  cases hprobe : pvc_exists f v st with
  | error err => simp [ensure_storage, hprobe] at h
  | ok b =>
    cases b with
    | true =>
      have hb := pvc_exists_ok hprobe
      have hmem : v ∈ st.pvcs := of_decide_eq_true hb.symm
      simp only [ensure_storage, hprobe, Except.ok.injEq] at h
      exact h ▸ hmem
    | false =>
      cases hj : create_nfs_directory_job f v st with
      | error err => simp [ensure_storage, hprobe, hj] at h
      | ok sta =>
        cases hpv : create_persistent_volume f v sta with
        | error err => simp [ensure_storage, hprobe, hj, hpv] at h
        | ok stb =>
          simp only [ensure_storage, hprobe, hj, hpv] at h
          have hc := pvc_claim_ok h
          rw [hc]
          exact mem_insertName_self v stb.pvcs

/-- When the claim already exists, the storage step performs no creation at
all: it either succeeds immediately with the state unchanged or fails at the
probe with the state unchanged. -/
lemma ensure_storage_mem {f : FaultSchedule} {v : String} {st : K8sState}
    (hmem : v ∈ st.pvcs) :
    ensure_storage f v st = Except.ok st ∨
      ensure_storage f v st = Except.error (st, ProvErr.fault PStep.pvcProbe) := by
  unfold ensure_storage pvc_exists
  by_cases hp : f PStep.pvcProbe = true
  · right
    simp [hp]
  · left
    simp [hp, hmem]

/-- When neither the claim nor the volume exists, a successful storage step
creates the job, the volume and the claim under their derived names. -/
lemma ensure_storage_fresh {f : FaultSchedule} {v : String} {st st' : K8sState}
    (hv : v ∉ st.pvcs) (hpv : ("pv-" ++ v) ∉ st.pvs)
    (h : ensure_storage f v st = Except.ok st') :
    ("pv-" ++ v) ∈ st'.pvs ∧ ("create-nfs-dir-" ++ v) ∈ st'.jobs ∧ v ∈ st'.pvcs := by
  cases hprobe : pvc_exists f v st with
  | error err => simp [ensure_storage, hprobe] at h
  | ok b =>
    have hb := pvc_exists_ok hprobe
    cases b with
    | true =>
      exact absurd (of_decide_eq_true hb.symm) hv
    | false =>
      cases hj : create_nfs_directory_job f v st with
      | error err => simp [ensure_storage, hprobe, hj] at h
      | ok sta =>
        have hja := nfs_job_ok hj
        cases hpvr : create_persistent_volume f v sta with
        | error err => simp [ensure_storage, hprobe, hj, hpvr] at h
        | ok stb =>
          simp only [ensure_storage, hprobe, hj, hpvr] at h
          have hpb := pv_ok hpvr
          have hstaPvs : sta.pvs = st.pvs := by rw [hja]
          have hpvMem : ("pv-" ++ v) ∈ stb.pvs := by
            cases hpb with
            | inl hcase =>
              exact absurd (hstaPvs ▸ hcase.2) hpv
            | inr hcase =>
              rw [hcase]
              exact mem_insertName_self _ _
          have hjobMem : ("create-nfs-dir-" ++ v) ∈ stb.jobs := by
            have hmemSta : ("create-nfs-dir-" ++ v) ∈ sta.jobs := by
              rw [hja]
              exact mem_insertName_self _ _
            cases hpb with
            | inl hcase => exact hcase.1 ▸ hmemSta
            | inr hcase => rw [hcase]; exact hmemSta
          have hc := pvc_claim_ok h
          refine ⟨?_, ?_, ?_⟩
          · rw [hc]
            exact hpvMem
          · rw [hc]
            exact hjobMem
          · rw [hc]
            exact mem_insertName_self v stb.pvcs

/-! ## Whole-pipeline lemmas -/

/-- No provisioning pass, however it ends — including a failing stale
cleanup — ever removes a volume, a claim, or the shared config object. -/
lemma cmr_storagePreserved (f g0 : FaultSchedule) (d pod pvc key : String)
    (st0 : K8sState) :
    storagePreserved st0
      (provOutcomeState (create_minecraft_resources f g0 d pod pvc key st0)) := by
  cases h1 : cleanup_ephemeral_resources g0 (sanitize_name pod) st0 with
  | error err =>
    obtain ⟨st1, e⟩ := err
    have hc := cleanup_storagePreserved g0 (sanitize_name pod) st0
    rw [h1, carried_err] at hc
    simp only [create_minecraft_resources, h1, provOutcomeState]
    exact hc
  | ok st1 =>
    have hc := cleanup_storagePreserved g0 (sanitize_name pod) st0
    rw [h1, carried_ok] at hc
    cases h2 : create_or_update_paper_configmap f st1 with
    | error err =>
      obtain ⟨st', e⟩ := err
      have hp := paper_frame f st1
      rw [h2, carried_err] at hp
      simp only [create_minecraft_resources, h1, h2, provOutcomeState]
      exact storagePreserved_trans hc (onlyConfigMapsChanged_storagePreserved hp)
    | ok st2 =>
      have hp := paper_frame f st1
      rw [h2, carried_ok] at hp
      have sp2 : storagePreserved st0 st2 :=
        storagePreserved_trans hc (onlyConfigMapsChanged_storagePreserved hp)
      cases h3 : create_servertap_configmap f (sanitize_name pod) st2 with
      | error err =>
        obtain ⟨st', e⟩ := err
        have hs := servertap_frame f (sanitize_name pod) st2
        rw [h3, carried_err] at hs
        simp only [create_minecraft_resources, h1, h2, h3, provOutcomeState]
        exact storagePreserved_trans sp2 (onlyConfigMapsChanged_storagePreserved hs)
      | ok st3 =>
        have hs := servertap_frame f (sanitize_name pod) st2
        rw [h3, carried_ok] at hs
        have sp3 : storagePreserved st0 st3 :=
          storagePreserved_trans sp2 (onlyConfigMapsChanged_storagePreserved hs)
        cases h4 : ensure_storage f (sanitize_name pvc) st3 with
        | error err =>
          obtain ⟨st', e⟩ := err
          have he := ensure_storage_frame f (sanitize_name pvc) st3
          rw [h4, carried_err] at he
          simp only [create_minecraft_resources, h1, h2, h3, h4, provOutcomeState]
          exact storagePreserved_trans sp3 (onlyStorageChanged_storagePreserved he)
        | ok st4 =>
          have he := ensure_storage_frame f (sanitize_name pvc) st3
          rw [h4, carried_ok] at he
          have sp4 : storagePreserved st0 st4 :=
            storagePreserved_trans sp3 (onlyStorageChanged_storagePreserved he)
          cases h5 : create_deployment f (sanitize_name pod) st4 with
          | error err =>
            obtain ⟨st', e⟩ := err
            have hd := deploy_frame f (sanitize_name pod) st4
            rw [h5, carried_err] at hd
            simp only [create_minecraft_resources, h1, h2, h3, h4, h5,
              provOutcomeState]
            exact storagePreserved_trans sp4 (onlyEphemeralAdded_storagePreserved hd)
          | ok st5 =>
            have hd := deploy_frame f (sanitize_name pod) st4
            rw [h5, carried_ok] at hd
            have sp5 : storagePreserved st0 st5 :=
              storagePreserved_trans sp4 (onlyEphemeralAdded_storagePreserved hd)
            cases h6 : create_service f (sanitize_name pod) st5 with
            | error err =>
              obtain ⟨st', e⟩ := err
              have hv := service_frame f (sanitize_name pod) st5
              rw [h6, carried_err] at hv
              simp only [create_minecraft_resources, h1, h2, h3, h4, h5, h6,
                provOutcomeState]
              exact storagePreserved_trans sp5 (onlyEphemeralAdded_storagePreserved hv)
            | ok st6 =>
              have hv := service_frame f (sanitize_name pod) st5
              rw [h6, carried_ok] at hv
              have sp6 : storagePreserved st0 st6 :=
                storagePreserved_trans sp5 (onlyEphemeralAdded_storagePreserved hv)
              cases h7 : create_ingress f (sanitize_name pod) st6 with
              | error err =>
                obtain ⟨st', e⟩ := err
                have hi := ingress_frame f (sanitize_name pod) st6
                rw [h7, carried_err] at hi
                simp only [create_minecraft_resources, h1, h2, h3, h4, h5, h6, h7,
                  provOutcomeState]
                exact storagePreserved_trans sp6 (onlyEphemeralAdded_storagePreserved hi)
              | ok st7 =>
                have hi := ingress_frame f (sanitize_name pod) st6
                rw [h7, carried_ok] at hi
                simp only [create_minecraft_resources, h1, h2, h3, h4, h5, h6, h7,
                  provOutcomeState]
                exact storagePreserved_trans sp6 (onlyEphemeralAdded_storagePreserved hi)

/-- The same, lifted to the facade call: the compensation, even when one of
its deletes fails partway, never touches storage. -/
lemma create_server_storagePreserved (f g0 gc : FaultSchedule)
    (d pod pvc key : String) (st0 : K8sState) :
    storagePreserved st0
      (provOutcomeState (create_server f g0 gc d pod pvc key st0)) := by
  have hm := cmr_storagePreserved f g0 d pod pvc key st0
  cases h : create_minecraft_resources f g0 d pod pvc key st0 with
  | ok r =>
    rw [h] at hm
    simp only [create_server, h]
    exact hm
  | error err =>
    obtain ⟨stf, e⟩ := err
    rw [h] at hm
    simp only [provOutcomeState] at hm
    have hcl := cleanup_storagePreserved gc pod stf
    cases hc : cleanup_ephemeral_resources gc pod stf with
    | ok stc =>
      rw [hc, carried_ok] at hcl
      simp only [create_server, h, hc, provOutcomeState]
      exact storagePreserved_trans hm hcl
    | error err2 =>
      obtain ⟨stc, e2⟩ := err2
      rw [hc, carried_err] at hcl
      simp only [create_server, h, hc, provOutcomeState]
      exact storagePreserved_trans hm hcl

/-- Full characterization of a successful provisioning pass: the returned
dictionary and the presence of every created resource under its derived
name. -/
lemma cmr_ok_spec {f g0 : FaultSchedule} {d pod pvc key : String}
    {st0 st1 : K8sState} {res : ProvResult}
    (h : create_minecraft_resources f g0 d pod pvc key st0 = Except.ok (st1, res)) :
    res.status = "success" ∧
    res.pod_name = sanitize_name pod ∧
    res.pvc_name = sanitize_name pvc ∧
    res.game_url = sanitize_name pod ++ "." ++ d ∧
    res.api_url = "http://" ++ sanitize_name pod ++ "-api." ++ d ∧
    sanitize_name pod ∈ st1.deployments ∧
    (sanitize_name pod ++ "-svc") ∈ st1.services ∧
    ("servertap-" ++ sanitize_name pod ++ "-ingress") ∈ st1.ingresses ∧
    ("servertap-config-" ++ sanitize_name pod) ∈ st1.configMaps ∧
    sanitize_name pvc ∈ st1.pvcs := by
  cases h1 : cleanup_ephemeral_resources g0 (sanitize_name pod) st0 with
  | error err => simp [create_minecraft_resources, h1] at h
  | ok stA =>
    cases h2 : create_or_update_paper_configmap f stA with
    | error err => simp [create_minecraft_resources, h1, h2] at h
    | ok st2 =>
      cases h3 : create_servertap_configmap f (sanitize_name pod) st2 with
      | error err => simp [create_minecraft_resources, h1, h2, h3] at h
      | ok st3 =>
        have hcm3 : ("servertap-config-" ++ sanitize_name pod) ∈ st3.configMaps := by
          rw [servertap_ok h3]
          exact mem_insertName_self _ _
        cases h4 : ensure_storage f (sanitize_name pvc) st3 with
        | error err => simp [create_minecraft_resources, h1, h2, h3, h4] at h
        | ok st4 =>
          have hes := ensure_storage_frame f (sanitize_name pvc) st3
          rw [h4, carried_ok] at hes
          have hcm4 : ("servertap-config-" ++ sanitize_name pod) ∈ st4.configMaps := by
            rw [hes.2.2.2.1]
            exact hcm3
          have hpvc4 : sanitize_name pvc ∈ st4.pvcs := ensure_storage_ok_pvc_mem h4
          cases h5 : create_deployment f (sanitize_name pod) st4 with
          | error err => simp [create_minecraft_resources, h1, h2, h3, h4, h5] at h
          | ok st5 =>
            have hst5 := deploy_ok h5
            cases h6 : create_service f (sanitize_name pod) st5 with
            | error err =>
              simp [create_minecraft_resources, h1, h2, h3, h4, h5, h6] at h
            | ok st6 =>
              have hst6 := service_ok h6
              cases h7 : create_ingress f (sanitize_name pod) st6 with
              | error err =>
                simp [create_minecraft_resources, h1, h2, h3, h4, h5, h6, h7] at h
              | ok st7 =>
                have hst7 := ingress_ok h7
                simp only [create_minecraft_resources, h1, h2, h3, h4, h5, h6, h7,
                  Except.ok.injEq, Prod.mk.injEq] at h
                obtain ⟨hst, hres⟩ := h
                subst hst
                subst hres
                subst hst7
                subst hst6
                subst hst5
                refine ⟨rfl, rfl, rfl, rfl, rfl, ?_, ?_, ?_, ?_, ?_⟩
                · exact mem_insertName_self _ _
                · exact mem_insertName_self _ _
                · exact mem_insertName_self _ _
                · exact hcm4
                · exact hpvc4

/-- When the claim exists before the call, the whole provisioning pass —
however it ends — leaves volumes, claims and jobs bit-for-bit unchanged: the
storage step short-circuits at the existence probe. -/
lemma cmr_sameStorage_of_mem (f g0 : FaultSchedule) (d pod pvc key : String)
    (st0 : K8sState) (hmem : sanitize_name pvc ∈ st0.pvcs) :
    sameStorage st0
      (provOutcomeState (create_minecraft_resources f g0 d pod pvc key st0)) := by
  cases h1 : cleanup_ephemeral_resources g0 (sanitize_name pod) st0 with
  | error err =>
    obtain ⟨st1, e⟩ := err
    have hc := cleanup_sameStorage g0 (sanitize_name pod) st0
    rw [h1, carried_err] at hc
    simp only [create_minecraft_resources, h1, provOutcomeState]
    exact hc
  | ok st1 =>
    have hc := cleanup_sameStorage g0 (sanitize_name pod) st0
    rw [h1, carried_ok] at hc
    have hmem1 : sanitize_name pvc ∈ st1.pvcs := by
      rw [hc.2.1]
      exact hmem
    cases h2 : create_or_update_paper_configmap f st1 with
    | error err =>
      obtain ⟨st', e⟩ := err
      have hp := paper_frame f st1
      rw [h2, carried_err] at hp
      simp only [create_minecraft_resources, h1, h2, provOutcomeState]
      exact sameStorage_trans hc (onlyConfigMapsChanged_sameStorage hp)
    | ok st2 =>
      have hp := paper_frame f st1
      rw [h2, carried_ok] at hp
      have ss2 : sameStorage st0 st2 :=
        sameStorage_trans hc (onlyConfigMapsChanged_sameStorage hp)
      cases h3 : create_servertap_configmap f (sanitize_name pod) st2 with
      | error err =>
        obtain ⟨st', e⟩ := err
        have hs := servertap_frame f (sanitize_name pod) st2
        rw [h3, carried_err] at hs
        simp only [create_minecraft_resources, h1, h2, h3, provOutcomeState]
        exact sameStorage_trans ss2 (onlyConfigMapsChanged_sameStorage hs)
      | ok st3 =>
        have hs := servertap_frame f (sanitize_name pod) st2
        rw [h3, carried_ok] at hs
        have ss3 : sameStorage st0 st3 :=
          sameStorage_trans ss2 (onlyConfigMapsChanged_sameStorage hs)
        have hmem3 : sanitize_name pvc ∈ st3.pvcs := by
          rw [ss3.2.1]
          exact hmem
        cases ensure_storage_mem (f := f) hmem3 with
        | inl h4 =>
          cases h5 : create_deployment f (sanitize_name pod) st3 with
          | error err =>
            obtain ⟨st', e⟩ := err
            have hd := deploy_frame f (sanitize_name pod) st3
            rw [h5, carried_err] at hd
            simp only [create_minecraft_resources, h1, h2, h3, h4, h5,
              provOutcomeState]
            exact sameStorage_trans ss3 (onlyEphemeralAdded_sameStorage hd)
          | ok st5 =>
            have hd := deploy_frame f (sanitize_name pod) st3
            rw [h5, carried_ok] at hd
            have ss5 : sameStorage st0 st5 :=
              sameStorage_trans ss3 (onlyEphemeralAdded_sameStorage hd)
            cases h6 : create_service f (sanitize_name pod) st5 with
            | error err =>
              obtain ⟨st', e⟩ := err
              have hv := service_frame f (sanitize_name pod) st5
              rw [h6, carried_err] at hv
              simp only [create_minecraft_resources, h1, h2, h3, h4, h5, h6,
                provOutcomeState]
              exact sameStorage_trans ss5 (onlyEphemeralAdded_sameStorage hv)
            | ok st6 =>
              have hv := service_frame f (sanitize_name pod) st5
              rw [h6, carried_ok] at hv
              have ss6 : sameStorage st0 st6 :=
                sameStorage_trans ss5 (onlyEphemeralAdded_sameStorage hv)
              cases h7 : create_ingress f (sanitize_name pod) st6 with
              | error err =>
                obtain ⟨st', e⟩ := err
                have hi := ingress_frame f (sanitize_name pod) st6
                rw [h7, carried_err] at hi
                simp only [create_minecraft_resources, h1, h2, h3, h4, h5, h6, h7,
                  provOutcomeState]
                exact sameStorage_trans ss6 (onlyEphemeralAdded_sameStorage hi)
              | ok st7 =>
                have hi := ingress_frame f (sanitize_name pod) st6
                rw [h7, carried_ok] at hi
                simp only [create_minecraft_resources, h1, h2, h3, h4, h5, h6, h7,
                  provOutcomeState]
                exact sameStorage_trans ss6 (onlyEphemeralAdded_sameStorage hi)
        | inr h4 =>
          simp only [create_minecraft_resources, h1, h2, h3, h4, provOutcomeState]
          exact ss3

/-- A fresh successful provisioning pass (no pre-existing claim or volume)
carries the derived volume and directory-job names in its final state. -/
lemma cmr_ok_fresh {f g0 : FaultSchedule} {d pod pvc key : String}
    {st0 st1 : K8sState} {res : ProvResult}
    (hv : sanitize_name pvc ∉ st0.pvcs) (hpv : ("pv-" ++ sanitize_name pvc) ∉ st0.pvs)
    (h : create_minecraft_resources f g0 d pod pvc key st0 = Except.ok (st1, res)) :
    ("pv-" ++ sanitize_name pvc) ∈ st1.pvs ∧
      ("create-nfs-dir-" ++ sanitize_name pvc) ∈ st1.jobs := by
  cases h1 : cleanup_ephemeral_resources g0 (sanitize_name pod) st0 with
  | error err => simp [create_minecraft_resources, h1] at h
  | ok stA =>
    have hcA := cleanup_sameStorage g0 (sanitize_name pod) st0
    rw [h1, carried_ok] at hcA
    cases h2 : create_or_update_paper_configmap f stA with
    | error err => simp [create_minecraft_resources, h1, h2] at h
    | ok st2 =>
      have hp := paper_frame f stA
      rw [h2, carried_ok] at hp
      cases h3 : create_servertap_configmap f (sanitize_name pod) st2 with
      | error err => simp [create_minecraft_resources, h1, h2, h3] at h
      | ok st3 =>
        have hs := servertap_frame f (sanitize_name pod) st2
        rw [h3, carried_ok] at hs
        have hpvcs3 : st3.pvcs = st0.pvcs := by
          rw [hs.2.2.2.2.1, hp.2.2.2.2.1, hcA.2.1]
        have hpvs3 : st3.pvs = st0.pvs := by
          rw [hs.2.2.2.1, hp.2.2.2.1, hcA.1]
        have hv3 : sanitize_name pvc ∉ st3.pvcs := by
          rw [hpvcs3]
          exact hv
        have hpv3 : ("pv-" ++ sanitize_name pvc) ∉ st3.pvs := by
          rw [hpvs3]
          exact hpv
        cases h4 : ensure_storage f (sanitize_name pvc) st3 with
        | error err => simp [create_minecraft_resources, h1, h2, h3, h4] at h
        | ok st4 =>
          obtain ⟨hm1, hm2, _⟩ := ensure_storage_fresh hv3 hpv3 h4
          cases h5 : create_deployment f (sanitize_name pod) st4 with
          | error err => simp [create_minecraft_resources, h1, h2, h3, h4, h5] at h
          | ok st5 =>
            have hst5 := deploy_ok h5
            cases h6 : create_service f (sanitize_name pod) st5 with
            | error err =>
              simp [create_minecraft_resources, h1, h2, h3, h4, h5, h6] at h
            | ok st6 =>
              have hst6 := service_ok h6
              cases h7 : create_ingress f (sanitize_name pod) st6 with
              | error err =>
                simp [create_minecraft_resources, h1, h2, h3, h4, h5, h6, h7] at h
              | ok st7 =>
                have hst7 := ingress_ok h7
                simp only [create_minecraft_resources, h1, h2, h3, h4, h5, h6, h7,
                  Except.ok.injEq, Prod.mk.injEq] at h
                obtain ⟨hst, hres⟩ := h
                subst hst
                subst hst7
                subst hst6
                subst hst5
                exact ⟨hm1, hm2⟩

/-- Shape of a successful full teardown: the six derived names removed, no
other field touched (the inner re-sanitization collapses by idempotence). -/
lemma cleanup_all_ok {g : FaultSchedule} {pod pvc : String} {st st2 : K8sState}
    (h : cleanup_all_resources g pod pvc st = Except.ok st2) :
    st2 = { st with
      deployments := removeName (sanitize_name pod) st.deployments
      services := removeName (sanitize_name pod ++ "-svc") st.services
      ingresses := removeName ("servertap-" ++ sanitize_name pod ++ "-ingress") st.ingresses
      configMaps := removeName ("servertap-config-" ++ sanitize_name pod) st.configMaps
      pvcs := removeName (sanitize_name pvc) st.pvcs
      pvs := removeName ("pv-" ++ sanitize_name pvc) st.pvs } := by
  cases hce : cleanup_ephemeral_resources g (sanitize_name pod) st with
  | error err => simp [cleanup_all_resources, hce] at h
  | ok stm =>
    simp only [cleanup_all_resources, hce] at h
    have h1 := cleanup_ok hce
    have h2 := delete_persistent_data_ok h
    rw [h2, h1, sanitize_name_idem pvc]


/-! ## Lemmas about the two polling waiters -/

lemma pvcWaitAux_bound {env : Nat → Except ApiErr String} :
    ∀ {fuel i j : Nat}, pvcWaitAux env i fuel = PvcWaitOutcome.bound j →
      env j = Except.ok "Bound" ∧ i ≤ j ∧ j < i + fuel ∧
        ∀ m, i ≤ m → m < j → env m ≠ Except.ok "Bound" := by
  intro fuel
  induction fuel with
  | zero =>
    intro i j h
    simp [pvcWaitAux] at h
  | succ n ih =>
    intro i j h
    rw [pvcWaitAux] at h
    cases he : env i with
    | error a =>
      cases a with
      | notFound =>
        simp only [he] at h
        obtain ⟨hb, hij, hlt, hmin⟩ := ih h
        refine ⟨hb, by omega, by omega, ?_⟩
        intro m hm1 hm2
        by_cases hmi : m = i
        · subst hmi
          rw [he]
          simp
        · exact hmin m (by omega) hm2
      | other =>
        simp [he] at h
    | ok phase =>
      simp only [he] at h
      by_cases hp : phase = "Bound"
      · rw [if_pos hp] at h
        simp only [PvcWaitOutcome.bound.injEq] at h
        subst h
        subst hp
        exact ⟨he, Nat.le_refl i, by omega, fun m hm1 hm2 => by omega⟩
      · rw [if_neg hp] at h
        obtain ⟨hb, hij, hlt, hmin⟩ := ih h
        refine ⟨hb, by omega, by omega, ?_⟩
        intro m hm1 hm2
        by_cases hmi : m = i
        · subst hmi
          rw [he]
          intro hc
          exact hp (by simpa using hc)
        · exact hmin m (by omega) hm2

lemma pvcWaitAux_timeout {env : Nat → Except ApiErr String} :
    ∀ {fuel i : Nat}, (∀ m, i ≤ m → m < i + fuel → pvcRetry env m) →
      pvcWaitAux env i fuel = PvcWaitOutcome.timedOut := by
  intro fuel
  induction fuel with
  | zero => intro i h; rfl
  | succ n ih =>
    intro i h
    rw [pvcWaitAux]
    have hi := h i (Nat.le_refl i) (by omega)
    cases hi with
    | inl he =>
      simp only [he]
      exact ih (fun m hm1 hm2 => h m (by omega) (by omega))
    | inr he =>
      obtain ⟨ph, hph, hnb⟩ := he
      simp only [hph]
      rw [if_neg hnb]
      exact ih (fun m hm1 hm2 => h m (by omega) (by omega))

lemma pvcWaitAux_fault {env : Nat → Except ApiErr String} :
    ∀ {fuel i j : Nat}, i ≤ j → j < i + fuel →
      (∀ m, i ≤ m → m < j → pvcRetry env m) → env j = Except.error ApiErr.other →
      pvcWaitAux env i fuel = PvcWaitOutcome.apiFault j := by
  intro fuel
  induction fuel with
  | zero => intro i j h1 h2; omega
  | succ n ih =>
    intro i j h1 h2 h3 h4
    rw [pvcWaitAux]
    by_cases hij : j = i
    · subst hij
      simp only [h4]
    · have hi := h3 i (Nat.le_refl i) (by omega)
      cases hi with
      | inl he =>
        simp only [he]
        exact ih (by omega) (by omega) (fun m hm1 hm2 => h3 m (by omega) hm2) h4
      | inr he =>
        obtain ⟨ph, hph, hnb⟩ := he
        simp only [hph]
        rw [if_neg hnb]
        exact ih (by omega) (by omega) (fun m hm1 hm2 => h3 m (by omega) hm2) h4

lemma jobWaitAux_step {env : Nat → JobPoll} {m : Nat} (h : jobLoops env m)
    (n : Nat) : jobWaitAux env m (n + 1) = jobWaitAux env (m + 1) n := by
  rw [jobWaitAux]
  cases h with
  | inl he => simp only [he]
  | inr hrest =>
    cases hrest with
    | inl he => simp only [he]
    | inr hfail =>
      obtain ⟨hf, hdiag⟩ := hfail
      cases hdiag with
      | inl hpods => simp only [hf, hpods]
      | inr hlog =>
        obtain ⟨ps, hps, hne, hlr⟩ := hlog
        cases ps with
        | nil => exact absurd rfl hne
        | cons a t => simp only [hf, hps, hlr]

lemma jobWaitAux_completed {env : Nat → JobPoll} :
    ∀ {fuel i j : Nat}, i ≤ j → j < i + fuel →
      (∀ m, i ≤ m → m < j → jobLoops env m) →
      (env j).jobRead = Except.ok JobState.succeeded →
      jobWaitAux env i fuel = JobWaitOutcome.completed j := by
  intro fuel
  induction fuel with
  | zero => intro i j h1 h2; omega
  | succ n ih =>
    intro i j h1 h2 h3 h4
    by_cases hij : j = i
    · subst hij
      rw [jobWaitAux]
      simp only [h4]
    · rw [jobWaitAux_step (h3 i (Nat.le_refl i) (by omega)) n]
      exact ih (by omega) (by omega) (fun m hm1 hm2 => h3 m (by omega) hm2) h4

lemma jobWaitAux_timeout {env : Nat → JobPoll} :
    ∀ {fuel i : Nat}, (∀ m, i ≤ m → m < i + fuel → jobLoops env m) →
      jobWaitAux env i fuel = JobWaitOutcome.timedOut := by
  intro fuel
  induction fuel with
  | zero => intro i h; rfl
  | succ n ih =>
    intro i h
    rw [jobWaitAux_step (h i (Nat.le_refl i) (by omega)) n]
    exact ih (fun m hm1 hm2 => h m (by omega) (by omega))

lemma jobWaitAux_jobread_fault {env : Nat → JobPoll} :
    ∀ {fuel i j : Nat}, i ≤ j → j < i + fuel →
      (∀ m, i ≤ m → m < j → jobLoops env m) →
      (env j).jobRead = Except.error ApiErr.other →
      jobWaitAux env i fuel = JobWaitOutcome.apiFault j := by
  intro fuel
  induction fuel with
  | zero => intro i j h1 h2; omega
  | succ n ih =>
    intro i j h1 h2 h3 h4
    by_cases hij : j = i
    · subst hij
      rw [jobWaitAux]
      simp only [h4]
    · rw [jobWaitAux_step (h3 i (Nat.le_refl i) (by omega)) n]
      exact ih (by omega) (by omega) (fun m hm1 hm2 => h3 m (by omega) hm2) h4

lemma jobWaitAux_taskFailure {env : Nat → JobPoll} :
    ∀ {fuel i j : Nat} {ps : List String} {logs : String}, i ≤ j → j < i + fuel →
      (∀ m, i ≤ m → m < j → jobLoops env m) →
      (env j).jobRead = Except.ok JobState.failed →
      (env j).podsList = Except.ok ps → ps ≠ [] →
      (env j).logRead = Except.ok logs →
      jobWaitAux env i fuel = JobWaitOutcome.taskFailure (some logs) := by
  intro fuel
  induction fuel with
  | zero => intro i j ps logs h1 h2; omega
  | succ n ih =>
    intro i j ps logs h1 h2 h3 h4 h5 h6 h7
    by_cases hij : j = i
    · subst hij
      cases ps with
      | nil => exact absurd rfl h6
      | cons a t =>
        rw [jobWaitAux]
        simp only [h4, h5, h7]
    · rw [jobWaitAux_step (h3 i (Nat.le_refl i) (by omega)) n]
      exact ih (by omega) (by omega) (fun m hm1 hm2 => h3 m (by omega) hm2) h4 h5 h6 h7

lemma jobWaitAux_logfetch_fault {env : Nat → JobPoll} :
    ∀ {fuel i j : Nat} {ps : List String}, i ≤ j → j < i + fuel →
      (∀ m, i ≤ m → m < j → jobLoops env m) →
      (env j).jobRead = Except.ok JobState.failed →
      (env j).podsList = Except.ok ps → ps ≠ [] →
      (env j).logRead = Except.error ApiErr.other →
      jobWaitAux env i fuel = JobWaitOutcome.apiFault j := by
  intro fuel
  induction fuel with
  | zero => intro i j ps h1 h2; omega
  | succ n ih =>
    intro i j ps h1 h2 h3 h4 h5 h6 h7
    by_cases hij : j = i
    · subst hij
      cases ps with
      | nil => exact absurd rfl h6
      | cons a t =>
        rw [jobWaitAux]
        simp only [h4, h5, h7]
    · rw [jobWaitAux_step (h3 i (Nat.le_refl i) (by omega)) n]
      exact ih (by omega) (by omega) (fun m hm1 hm2 => h3 m (by omega) hm2) h4 h5 h6 h7

/-! ## Claim theorems -/

/-- C1.  The pause operation exposed to the calling API layer can never
succeed with an acknowledgement: `MinecraftServerManager` defines no
`pause_server` method, so the endpoint's attribute lookup raises
AttributeError and every pause request is answered with HTTP 500 — contrary
to the endpoint's own documentation and the compensating-cleanup helper
that was prepared for it. -/
theorem claim1_pause_always_http500 :
    ("pause_server" ∉ minecraftServerManagerMethods) ∧
    ∀ (pod : String) (st : K8sState), pause_server_endpoint pod st =
      HttpResult.internalServerError
        "AttributeError: MinecraftServerManager object has no attribute pause_server" := by
  constructor
  · decide
  · intro pod st
    rfl

/-- C2 counterexample.  The compensation itself can fail: provisioning
foo/bar from the empty cluster fails at ingress creation (original error:
fault at ingress), and with the compensating service delete failing, the
facade surfaces the delete fault instead of the original error and leaves
foo-svc listed — so neither is the original failure re-raised unmodified nor
is the ephemeral listing for the identity empty. -/
theorem claim2_compensation_counterexample :
    create_minecraft_resources ingressFault noFault "mc.msdca.shop" "foo" "bar" "k"
      emptyState = Except.error (c2IngressFailState, ProvErr.fault PStep.ingress) ∧
    create_server ingressFault noFault delServiceFault "mc.msdca.shop" "foo" "bar" "k"
      emptyState = Except.error (c2PartialCompState, ProvErr.fault PStep.delService) ∧
    ProvErr.fault PStep.delService ≠ ProvErr.fault PStep.ingress ∧
    ("foo" ++ "-svc") ∈ c2PartialCompState.services := by
  refine ⟨by decide, by decide, by decide, by decide⟩

/-- C2 (amended).  For an already-sanitized server identity, whenever the
orchestrator fails: provided the four compensating deletes succeed, the
facade deletes exactly the ephemeral resource set for that identity, leaves
volumes and claims bit-for-bit untouched, and re-raises the original error
unmodified; if instead a compensating delete fails with a non-404 platform
error, that error is raised in place of the original one (the deletes
already issued are kept, the rest do not run). -/
theorem claim2_provision_rollback (f g0 gc : FaultSchedule) (d pod pvc key : String)
    (st0 stf : K8sState) (e : ProvErr)
    (hid : sanitize_name pod = pod)
    (hfail : create_minecraft_resources f g0 d pod pvc key st0 = Except.error (stf, e)) :
    (∀ stc, cleanup_ephemeral_resources gc pod stf = Except.ok stc →
      create_server f g0 gc d pod pvc key st0 = Except.error (stc, e) ∧
      sanitize_name pod ∉ stc.deployments ∧
      (sanitize_name pod ++ "-svc") ∉ stc.services ∧
      ("servertap-" ++ sanitize_name pod ++ "-ingress") ∉ stc.ingresses ∧
      ("servertap-config-" ++ sanitize_name pod) ∉ stc.configMaps ∧
      stc.pvs = stf.pvs ∧
      stc.pvcs = stf.pvcs) ∧
    (∀ stc e2, cleanup_ephemeral_resources gc pod stf = Except.error (stc, e2) →
      create_server f g0 gc d pod pvc key st0 = Except.error (stc, e2)) := by
  constructor
  · intro stc hclean
    have hshape := cleanup_ok hclean
    subst hshape
    rw [hid]
    refine ⟨?_, not_mem_removeName _ _, not_mem_removeName _ _, not_mem_removeName _ _,
      not_mem_removeName _ _, rfl, rfl⟩
    simp only [create_server, hfail, hclean]
  · intro stc e2 hclean
    simp only [create_server, hfail, hclean]

/-- Witness for C2: a service-creation failure compensated without delete
faults ends in the rolled-back state with the original error re-raised; and
with a failing compensating service delete, the delete fault is surfaced. -/
theorem claim2_provision_rollback_witness :
    (create_server serviceFault noFault noFault "mc.msdca.shop" "foo" "bar" "k"
        emptyState = Except.error (rolledBackState, ProvErr.fault PStep.service) ∧
      sanitize_name "foo" ∉ rolledBackState.deployments ∧
      (sanitize_name "foo" ++ "-svc") ∉ rolledBackState.services ∧
      ("servertap-" ++ sanitize_name "foo" ++ "-ingress") ∉ rolledBackState.ingresses ∧
      ("servertap-config-" ++ sanitize_name "foo") ∉ rolledBackState.configMaps ∧
      rolledBackState.pvs = serviceFailState.pvs ∧
      rolledBackState.pvcs = serviceFailState.pvcs) ∧
    create_server ingressFault noFault delServiceFault "mc.msdca.shop" "foo" "bar" "k"
      emptyState = Except.error (c2PartialCompState, ProvErr.fault PStep.delService) :=
  ⟨(claim2_provision_rollback serviceFault noFault noFault "mc.msdca.shop" "foo" "bar"
      "k" emptyState serviceFailState (ProvErr.fault PStep.service)
      (by decide) (by decide)).1 rolledBackState (by decide),
    (claim2_provision_rollback ingressFault noFault delServiceFault "mc.msdca.shop"
      "foo" "bar" "k" emptyState c2IngressFailState (ProvErr.fault PStep.ingress)
      (by decide) (by decide)).2 c2PartialCompState (ProvErr.fault PStep.delService)
      (by decide)⟩

/-- C3.  The shared-config create-or-update operation never holds the
manager's mutual-exclusion lock: although `__init__` allocates
`_configmap_lock`, neither branch of `create_or_update_paper_configmap`
contains a lock acquisition, so its read-then-create/patch trace runs
entirely outside any critical section. -/
theorem claim3_shared_config_lock_never_held :
    initAllocatesConfigmapLock = true ∧
    ∀ b : Bool, (CMAction.acquireLock ∉ paperConfigmapTrace b) ∧
      allUnderLock (paperConfigmapTrace b) false = false := by
  constructor
  · rfl
  · decide

/-- C4 counterexample.  A failed directory-provisioning task whose log fetch
errors does not surface as a TaskFailure: a non-404 log-read error replaces
it with the raw platform error, and a persistent 404 on the log read makes
the waiter retry until it raises the timeout error instead. -/
theorem claim4_log_fetch_counterexample :
    wait_for_job_completion envJobLogFault = JobWaitOutcome.apiFault 0 ∧
    wait_for_job_completion envJobLogMissing = JobWaitOutcome.timedOut := by
  constructor
  · decide
  · decide

/-- C4 (amended).  On a failed task the waiter raises TaskFailure after
fetching the task's logs when that fetch succeeds; a 404 during the log
fetch sends the waiter back into the polling loop (so a persistently missing
pod or log converts the failure into a timeout), and any other log-fetch
failure is raised in place of the TaskFailure. -/
theorem claim4_task_failure_enrichment (env : Nat → JobPoll) (j : Nat)
    (ps : List String) (logs : String) :
    (j < maxPolls → (∀ m, m < j → jobLoops env m) →
      (env j).jobRead = Except.ok JobState.failed →
      (env j).podsList = Except.ok ps → ps ≠ [] →
      (env j).logRead = Except.ok logs →
      wait_for_job_completion env = JobWaitOutcome.taskFailure (some logs)) ∧
    (j < maxPolls → (∀ m, m < j → jobLoops env m) →
      (env j).jobRead = Except.ok JobState.failed →
      (env j).podsList = Except.ok ps → ps ≠ [] →
      (env j).logRead = Except.error ApiErr.other →
      wait_for_job_completion env = JobWaitOutcome.apiFault j) ∧
    ((∀ m, m < maxPolls → jobLoops env m) →
      wait_for_job_completion env = JobWaitOutcome.timedOut) := by
  refine ⟨?_, ?_, ?_⟩
  · intro hj hpre h1 h2 h3 h4
    rw [wait_for_job_completion]
    exact jobWaitAux_taskFailure (Nat.zero_le j) (by omega)
      (fun m hm1 hm2 => hpre m hm2) h1 h2 h3 h4
  · intro hj hpre h1 h2 h3 h4
    rw [wait_for_job_completion]
    exact jobWaitAux_logfetch_fault (Nat.zero_le j) (by omega)
      (fun m hm1 hm2 => hpre m hm2) h1 h2 h3 h4
  · intro hall
    rw [wait_for_job_completion]
    exact jobWaitAux_timeout (fun m hm1 hm2 => hall m (by omega))

/-- Witness for C4: concrete failed-task environments exercising all three
branches of the enrichment behaviour. -/
theorem claim4_task_failure_enrichment_witness :
    wait_for_job_completion envJobLogsOk = JobWaitOutcome.taskFailure (some "boom") ∧
    wait_for_job_completion envJobLogFault = JobWaitOutcome.apiFault 0 ∧
    wait_for_job_completion envJobLogMissing = JobWaitOutcome.timedOut := by
  refine ⟨?_, ?_, ?_⟩
  · exact (claim4_task_failure_enrichment envJobLogsOk 0 ["pod-0"] "boom").1
      (by decide) (fun m hm => absurd hm (by omega)) rfl rfl (by decide) rfl
  · exact (claim4_task_failure_enrichment envJobLogFault 0 ["pod-0"] "").2.1
      (by decide) (fun m hm => absurd hm (by omega)) rfl rfl (by decide) rfl
  · exact (claim4_task_failure_enrichment envJobLogMissing 0 [] "").2.2
      (fun m hm => Or.inr (Or.inr ⟨rfl, Or.inr ⟨["pod-0"], rfl, by decide, rfl⟩⟩))

/-- C5 counterexample.  The management address returned by a successful
provision is not bit-exactly <identity>-api.<domain>: the code puts the
scheme in front, returning http://<identity>-api.<domain>. -/
theorem claim5_management_address_counterexample :
    create_minecraft_resources noFault noFault "mc.msdca.shop" "foo" "bar" "k"
      emptyState = Except.ok (fooBarState, fooBarResult) ∧
    fooBarResult.api_url = "http://foo-api.mc.msdca.shop" ∧
    fooBarResult.api_url ≠ "foo-api.mc.msdca.shop" := by
  refine ⟨?_, ?_, ?_⟩
  · decide
  · rfl
  · decide

/-- C5 (amended).  A fresh successful provision creates exactly the derived
names — volume pv-<storage>, endpoint <id>-svc, route
servertap-<id>-ingress, config servertap-config-<id>, task
create-nfs-dir-<storage> — and returns game address <id>.<domain> and
management address http://<id>-api.<domain> (carrying the scheme; the bare
host <id>-api.<domain> is the route's host). -/
theorem claim5_naming_contract (f g0 : FaultSchedule) (d pod pvc key : String)
    (st0 st1 : K8sState) (res : ProvResult)
    (hv : sanitize_name pvc ∉ st0.pvcs)
    (hpv : ("pv-" ++ sanitize_name pvc) ∉ st0.pvs)
    (hok : create_minecraft_resources f g0 d pod pvc key st0 = Except.ok (st1, res)) :
    ("pv-" ++ sanitize_name pvc) ∈ st1.pvs ∧
    ("create-nfs-dir-" ++ sanitize_name pvc) ∈ st1.jobs ∧
    (sanitize_name pod ++ "-svc") ∈ st1.services ∧
    ("servertap-" ++ sanitize_name pod ++ "-ingress") ∈ st1.ingresses ∧
    ("servertap-config-" ++ sanitize_name pod) ∈ st1.configMaps ∧
    res.game_url = sanitize_name pod ++ "." ++ d ∧
    res.api_url = "http://" ++ sanitize_name pod ++ "-api." ++ d := by
  obtain ⟨h1, h2, h3, h4, h5, h6, h7, h8, h9, h10⟩ := cmr_ok_spec hok
  obtain ⟨hm1, hm2⟩ := cmr_ok_fresh hv hpv hok
  exact ⟨hm1, hm2, h7, h8, h9, h4, h5⟩

/-- Witness for C5: the fault-free provision of foo/bar from the empty
cluster creates all five derived names and returns both addresses. -/
theorem claim5_naming_contract_witness :
    ("pv-" ++ sanitize_name "bar") ∈ fooBarState.pvs ∧
    ("create-nfs-dir-" ++ sanitize_name "bar") ∈ fooBarState.jobs ∧
    (sanitize_name "foo" ++ "-svc") ∈ fooBarState.services ∧
    ("servertap-" ++ sanitize_name "foo" ++ "-ingress") ∈ fooBarState.ingresses ∧
    ("servertap-config-" ++ sanitize_name "foo") ∈ fooBarState.configMaps ∧
    fooBarResult.game_url = sanitize_name "foo" ++ "." ++ "mc.msdca.shop" ∧
    fooBarResult.api_url = "http://" ++ sanitize_name "foo" ++ "-api." ++ "mc.msdca.shop" :=
  claim5_naming_contract noFault noFault "mc.msdca.shop" "foo" "bar" "k" emptyState
    fooBarState fooBarResult (by decide) (by decide) (by decide)

/-- C6.  No provisioning call, successful or failed at any step, ever
deletes a volume, a claim or the shared config object; and the
ephemeral-cleanup compensation deletes exactly the deployment, service,
route and per-server config object of the given identity, leaving every
other resource unchanged. -/
theorem claim6_storage_never_deleted (f g0 gc g g2 : FaultSchedule)
    (d pod pvc key : String) (st0 st st' : K8sState) (n : String)
    (hclean : cleanup_ephemeral_resources g pod st = Except.ok st') :
    storagePreserved st0 (provOutcomeState (create_server f g0 gc d pod pvc key st0)) ∧
    sameStorage st (carriedState (cleanup_ephemeral_resources g2 pod st)) ∧
    st'.pvs = st.pvs ∧
    st'.pvcs = st.pvcs ∧
    st'.jobs = st.jobs ∧
    (n ∈ st'.deployments ↔ (n ∈ st.deployments ∧ n ≠ pod)) ∧
    (n ∈ st'.services ↔ (n ∈ st.services ∧ n ≠ pod ++ "-svc")) ∧
    (n ∈ st'.ingresses ↔ (n ∈ st.ingresses ∧ n ≠ "servertap-" ++ pod ++ "-ingress")) ∧
    (n ∈ st'.configMaps ↔ (n ∈ st.configMaps ∧ n ≠ "servertap-config-" ++ pod)) := by
  have hshape := cleanup_ok hclean
  subst hshape
  exact ⟨create_server_storagePreserved f g0 gc d pod pvc key st0,
    cleanup_sameStorage g2 pod st, rfl, rfl, rfl,
    mem_removeName, mem_removeName, mem_removeName, mem_removeName⟩

/-- Witness for C6 at a concrete run and state (the cleanup whose storage
frame is checked is even one with a failing delete). -/
theorem claim6_storage_never_deleted_witness :
    storagePreserved emptyState
      (provOutcomeState
        (create_server noFault noFault noFault "mc.msdca.shop" "foo" "bar" "k" emptyState)) ∧
    sameStorage fooBarState
      (carriedState (cleanup_ephemeral_resources delServiceFault "foo" fooBarState)) ∧
    rolledBackState.pvs = fooBarState.pvs ∧
    rolledBackState.pvcs = fooBarState.pvcs ∧
    rolledBackState.jobs = fooBarState.jobs ∧
    ("x" ∈ rolledBackState.deployments ↔ ("x" ∈ fooBarState.deployments ∧ "x" ≠ "foo")) ∧
    ("x" ∈ rolledBackState.services ↔
      ("x" ∈ fooBarState.services ∧ "x" ≠ "foo" ++ "-svc")) ∧
    ("x" ∈ rolledBackState.ingresses ↔
      ("x" ∈ fooBarState.ingresses ∧ "x" ≠ "servertap-" ++ "foo" ++ "-ingress")) ∧
    ("x" ∈ rolledBackState.configMaps ↔
      ("x" ∈ fooBarState.configMaps ∧ "x" ≠ "servertap-config-" ++ "foo")) :=
  claim6_storage_never_deleted noFault noFault noFault noFault delServiceFault
    "mc.msdca.shop" "foo" "bar" "k" emptyState fooBarState rolledBackState "x"
    (by decide)

/-- C7.  If the claim already exists when provision runs, the storage step
short-circuits at the existence probe and the whole call leaves volumes,
claims and jobs bit-for-bit unchanged; consequently a second provision with
the same storage identity (under any pod name) creates no second
volume/claim pair. -/
theorem claim7_storage_reuse (f f2 g0 g02 : FaultSchedule)
    (d d2 pod pod2 pvc key key2 : String) (st0 : K8sState) :
    (sanitize_name pvc ∈ st0.pvcs →
      sameStorage st0
        (provOutcomeState (create_minecraft_resources f g0 d pod pvc key st0))) ∧
    (∀ st1 res, create_minecraft_resources f g0 d pod pvc key st0 = Except.ok (st1, res) →
      sameStorage st1
        (provOutcomeState (create_minecraft_resources f2 g02 d2 pod2 pvc key2 st1))) := by
  constructor
  · intro hmem
    exact cmr_sameStorage_of_mem f g0 d pod pvc key st0 hmem
  · intro st1 res hok
    exact cmr_sameStorage_of_mem f2 g02 d2 pod2 pvc key2 st1
      ((cmr_ok_spec hok).2.2.2.2.2.2.2.2.2)

/-- Witness for C7: provisioning against the pre-existing claim bar leaves
storage unchanged, and a second provision after a successful first one does
too. -/
theorem claim7_storage_reuse_witness :
    sameStorage stateWithBar
      (provOutcomeState
        (create_minecraft_resources noFault noFault "mc.msdca.shop" "foo" "bar" "k"
          stateWithBar)) ∧
    sameStorage fooBarState
      (provOutcomeState
        (create_minecraft_resources noFault noFault "mc.msdca.shop" "qux" "bar" "k"
          fooBarState)) :=
  ⟨(claim7_storage_reuse noFault noFault noFault noFault "mc.msdca.shop"
      "mc.msdca.shop" "foo" "qux" "bar" "k" "k" stateWithBar).1 (by decide),
   (claim7_storage_reuse noFault noFault noFault noFault "mc.msdca.shop"
      "mc.msdca.shop" "foo" "qux" "bar" "k" "k" emptyState).2 fooBarState fooBarResult
      (by decide)⟩

/-- C8.  Both waiters poll at a fixed 2-second interval against a 60-second
deadline (30 polls), succeed at the first poll whose predicate holds, treat
a 404 read as a false predicate and retry, raise the timeout error when the
deadline elapses first, and abort immediately with the platform error on any
other read failure. -/
theorem claim8_wait_contract :
    pollIntervalSeconds = 2 ∧ waitTimeoutSeconds = 60 ∧ maxPolls = 30 ∧
    (∀ (env : Nat → Except ApiErr String) (j : Nat),
      wait_for_pvc_bound env = PvcWaitOutcome.bound j →
      env j = Except.ok "Bound" ∧ j < maxPolls ∧
        ∀ m, m < j → env m ≠ Except.ok "Bound") ∧
    (∀ env : Nat → Except ApiErr String, (∀ m, m < maxPolls → pvcRetry env m) →
      wait_for_pvc_bound env = PvcWaitOutcome.timedOut) ∧
    (∀ (env : Nat → Except ApiErr String) (j : Nat), j < maxPolls →
      (∀ m, m < j → pvcRetry env m) → env j = Except.error ApiErr.other →
      wait_for_pvc_bound env = PvcWaitOutcome.apiFault j) ∧
    (∀ (env : Nat → JobPoll) (j : Nat), j < maxPolls →
      (∀ m, m < j → jobLoops env m) →
      (env j).jobRead = Except.ok JobState.succeeded →
      wait_for_job_completion env = JobWaitOutcome.completed j) ∧
    (∀ env : Nat → JobPoll, (∀ m, m < maxPolls → jobLoops env m) →
      wait_for_job_completion env = JobWaitOutcome.timedOut) ∧
    (∀ (env : Nat → JobPoll) (j : Nat), j < maxPolls →
      (∀ m, m < j → jobLoops env m) →
      (env j).jobRead = Except.error ApiErr.other →
      wait_for_job_completion env = JobWaitOutcome.apiFault j) := by
  refine ⟨rfl, rfl, rfl, ?_, ?_, ?_, ?_, ?_, ?_⟩
  · intro env j h
    rw [wait_for_pvc_bound] at h
    obtain ⟨hb, _, hlt, hmin⟩ := pvcWaitAux_bound h
    exact ⟨hb, by omega, fun m hm => hmin m (Nat.zero_le m) hm⟩
  · intro env h
    rw [wait_for_pvc_bound]
    exact pvcWaitAux_timeout (fun m hm1 hm2 => h m (by omega))
  · intro env j hj hpre hf
    rw [wait_for_pvc_bound]
    exact pvcWaitAux_fault (Nat.zero_le j) (by omega) (fun m hm1 hm2 => hpre m hm2) hf
  · intro env j hj hpre hs
    rw [wait_for_job_completion]
    exact jobWaitAux_completed (Nat.zero_le j) (by omega)
      (fun m hm1 hm2 => hpre m hm2) hs
  · intro env h
    rw [wait_for_job_completion]
    exact jobWaitAux_timeout (fun m hm1 hm2 => h m (by omega))
  · intro env j hj hpre hf
    rw [wait_for_job_completion]
    exact jobWaitAux_jobread_fault (Nat.zero_le j) (by omega)
      (fun m hm1 hm2 => hpre m hm2) hf

/-- Witness for C8: concrete environments exercising the success, timeout
and fatal-abort branches of both waiters. -/
theorem claim8_wait_contract_witness :
    envPvcBoundAt2 2 = Except.ok "Bound" ∧
    wait_for_pvc_bound envPvcNotFound = PvcWaitOutcome.timedOut ∧
    wait_for_pvc_bound envPvcFault = PvcWaitOutcome.apiFault 0 ∧
    wait_for_job_completion envJobSucceeded = JobWaitOutcome.completed 0 ∧
    wait_for_job_completion envJobRunning = JobWaitOutcome.timedOut ∧
    wait_for_job_completion envJobReadFault = JobWaitOutcome.apiFault 0 := by
  refine ⟨?_, ?_, ?_, ?_, ?_, ?_⟩
  · exact (claim8_wait_contract.2.2.2.1 envPvcBoundAt2 2 (by decide)).1
  · exact claim8_wait_contract.2.2.2.2.1 envPvcNotFound (fun m hm => Or.inl rfl)
  · exact claim8_wait_contract.2.2.2.2.2.1 envPvcFault 0 (by decide)
      (fun m hm => absurd hm (by omega)) rfl
  · exact claim8_wait_contract.2.2.2.2.2.2.1 envJobSucceeded 0 (by decide)
      (fun m hm => absurd hm (by omega)) rfl
  · exact claim8_wait_contract.2.2.2.2.2.2.2.1 envJobRunning
      (fun m hm => Or.inr (Or.inl rfl))
  · exact claim8_wait_contract.2.2.2.2.2.2.2.2 envJobReadFault 0 (by decide)
      (fun m hm => absurd hm (by omega)) rfl

/-- C9.  The name-normalization function is deterministic (it is a pure
function of its input) and idempotent: sanitizing an already-sanitized
identity returns it unchanged. -/
theorem claim9_sanitize_idempotent (s : String) :
    sanitize_name (sanitize_name s) = sanitize_name s :=
  sanitize_name_idem s

/-- C10.  Full teardown sanitizes its raw inputs with the same normalization
as provision, so a teardown invoked with the same raw strings as an earlier
successful provision removes, when its deletes go through, exactly the
resources that provision targeted — the deployment, service, route and
per-server config object of the server identity and the claim and volume of
the storage identity — and nothing else. -/
theorem claim10_teardown_matches_provision (f g0 g : FaultSchedule)
    (d pod pvc key : String) (st0 st1 st2 : K8sState) (res : ProvResult) (n : String)
    (hok : create_minecraft_resources f g0 d pod pvc key st0 = Except.ok (st1, res))
    (hteardown : cleanup_all_resources g pod pvc st1 = Except.ok st2) :
    sanitize_name pod ∈ st1.deployments ∧
    (sanitize_name pod ++ "-svc") ∈ st1.services ∧
    ("servertap-" ++ sanitize_name pod ++ "-ingress") ∈ st1.ingresses ∧
    ("servertap-config-" ++ sanitize_name pod) ∈ st1.configMaps ∧
    sanitize_name pvc ∈ st1.pvcs ∧
    sanitize_name pod ∉ st2.deployments ∧
    (sanitize_name pod ++ "-svc") ∉ st2.services ∧
    ("servertap-" ++ sanitize_name pod ++ "-ingress") ∉ st2.ingresses ∧
    ("servertap-config-" ++ sanitize_name pod) ∉ st2.configMaps ∧
    sanitize_name pvc ∉ st2.pvcs ∧
    ("pv-" ++ sanitize_name pvc) ∉ st2.pvs ∧
    st2.jobs = st1.jobs ∧
    (n ∈ st2.configMaps ↔
      (n ∈ st1.configMaps ∧ n ≠ "servertap-config-" ++ sanitize_name pod)) := by
  have hspec := cmr_ok_spec hok
  have hshape := cleanup_all_ok hteardown
  subst hshape
  exact ⟨hspec.2.2.2.2.2.1, hspec.2.2.2.2.2.2.1, hspec.2.2.2.2.2.2.2.1,
    hspec.2.2.2.2.2.2.2.2.1, hspec.2.2.2.2.2.2.2.2.2,
    not_mem_removeName _ _, not_mem_removeName _ _, not_mem_removeName _ _,
    not_mem_removeName _ _, not_mem_removeName _ _, not_mem_removeName _ _,
    rfl, mem_removeName⟩

/-- Witness for C10: provisioning foo/bar from the empty cluster and then
tearing down with the same raw strings removes exactly the six derived
names. -/
theorem claim10_teardown_matches_provision_witness :
    sanitize_name "foo" ∈ fooBarState.deployments ∧
    (sanitize_name "foo" ++ "-svc") ∈ fooBarState.services ∧
    ("servertap-" ++ sanitize_name "foo" ++ "-ingress") ∈ fooBarState.ingresses ∧
    ("servertap-config-" ++ sanitize_name "foo") ∈ fooBarState.configMaps ∧
    sanitize_name "bar" ∈ fooBarState.pvcs ∧
    sanitize_name "foo" ∉ tornDownState.deployments ∧
    (sanitize_name "foo" ++ "-svc") ∉ tornDownState.services ∧
    ("servertap-" ++ sanitize_name "foo" ++ "-ingress") ∉ tornDownState.ingresses ∧
    ("servertap-config-" ++ sanitize_name "foo") ∉ tornDownState.configMaps ∧
    sanitize_name "bar" ∉ tornDownState.pvcs ∧
    ("pv-" ++ sanitize_name "bar") ∉ tornDownState.pvs ∧
    tornDownState.jobs = fooBarState.jobs ∧
    ("x" ∈ tornDownState.configMaps ↔
      ("x" ∈ fooBarState.configMaps ∧ "x" ≠ "servertap-config-" ++ sanitize_name "foo")) :=
  claim10_teardown_matches_provision noFault noFault noFault "mc.msdca.shop" "foo"
    "bar" "k" emptyState fooBarState tornDownState fooBarResult "x"
    (by decide) (by decide)

end K8sFastApi
